import Mathlib

/-!
Verification of the stats ingestion, aggregation and ranking engine of
`bot.py` (wirl-stats-bot).  The Python code is shallowly embedded: Python
floats become `ℚ` (all quantities the claims touch are exact decimals and
small integer means, where float arithmetic is exact), Python ints become
`ℕ`/`ℤ`, dicts keyed by driver name become association lists that preserve
insertion order (as Python dicts do), and fallible code returns `Except`.
Python string methods (`strip`, `upper`, `lower`, `endswith`) are embedded
as structural functions over the character list so that concrete instances
evaluate inside the kernel.  The SHA-256 content digest used by duplicate
detection is modelled as an explicit function parameter `h`: every claim
about it depends only on the digest being a deterministic function of the
raw bytes.
-/

namespace WirlStats

/-- Python `str.strip()` whitespace test (ASCII whitespace suffices for the
payload fields involved). -/
def isWs (c : Char) : Bool :=
  c = ' ' || c = '\t' || c = '\n' || c = '\r'

/-- Python `str.strip()` on the underlying character list. -/
def stripList (l : List Char) : List Char :=
  ((l.dropWhile isWs).reverse.dropWhile isWs).reverse

/-- Python `str.strip()`. -/
def pyStrip (s : String) : String :=
  String.mk (stripList s.data)

/-- ASCII upper-casing of one character, as Python `str.upper()` acts on the
ASCII session labels compared against `"RACE"`/`"QUALIFY"`. -/
def upChar (c : Char) : Char :=
  if 97 ≤ c.toNat ∧ c.toNat ≤ 122 then Char.ofNat (c.toNat - 32) else c

/-- ASCII lower-casing of one character. -/
def lowChar (c : Char) : Char :=
  if 65 ≤ c.toNat ∧ c.toNat ≤ 90 then Char.ofNat (c.toNat + 32) else c

/-- Python `str.upper()` (ASCII fragment). -/
def pyUpper (s : String) : String :=
  String.mk (s.data.map upChar)

/-- Python `str.lower()` (ASCII fragment). -/
def pyLower (s : String) : String :=
  String.mk (s.data.map lowChar)

/-- Python `str.endswith(suffixStr)`. -/
def pyEndsWith (s suffixStr : String) : Bool :=
  suffixStr.data.isSuffixOf s.data

/-- Round-half-to-even on `ℚ`, the rounding mode of Python `round`. -/
def roundHalfEven (q : ℚ) : ℤ :=
  let f := ⌊q⌋
  let r := q - f
  if r < 1/2 then f
  else if 1/2 < r then f + 1
  else if f % 2 = 0 then f else f + 1

/-- Python `round(x, n)` on exact rationals. -/
def pyRound (n : ℕ) (q : ℚ) : ℚ :=
  (roundHalfEven (q * 10 ^ n) : ℚ) / 10 ^ n

/-- One result row of an iRacing `event_result` JSON session.  `Option`
fields model keys that may be absent (`none`) — for `finish_position` and
`starting_position` the code additionally treats negative values as
missing.  `best_lap_time` and `best_qual_lap_time` default to `-1` in the
source (`row.get("best_lap_time", -1)`), so an absent key is embedded as
`-1`. -/
structure JsonRow where
  display_name : String := ""
  country_code : String := ""
  finish_position : Option ℤ := none
  starting_position : Option ℤ := none
  incidents : ℚ := 0
  champ_points : ℚ := 0
  laps_complete : ℕ := 0
  laps_lead : ℕ := 0
  best_lap_time : ℚ := -1
  average_lap : ℚ := 0
  best_qual_lap_time : ℚ := -1
  deriving Repr, DecidableEq

/-- One entry of `payload["data"]["session_results"]`. -/
structure SessionResult where
  simsession_name : String := ""
  results : List JsonRow := []
  deriving Repr, DecidableEq

/-- The part of the payload the engine reads:
`payload["data"]["session_results"]`. -/
structure EventPayload where
  session_results : List SessionResult := []
  deriving Repr, DecidableEq

/-- A season's record for one driver (the untyped per-driver dict of
`bot.py`, restricted to the keys the ingestion/aggregation/reversal/ranking
logic reads or writes; the auxiliary `lap_times` / `position_changes` /
`weather_conditions` / `qual_vs_race` tracking feeds no field any claim
mentions and is omitted).  `rp` embeds the hidden weight key `"_rp"`. -/
structure DriverRec where
  country : String := ""
  races : ℕ := 0
  wins : ℕ := 0
  podiums : ℕ := 0
  top10s : ℕ := 0
  poles : ℕ := 0
  points : ℚ := 0
  avg_incidents : ℚ := 0
  avg_start : ℚ := 0
  avg_finish : ℚ := 0
  rp : ℕ := 0
  laps_complete : ℕ := 0
  laps_lead : ℕ := 0
  fastest_laps : ℕ := 0
  race_distances : List ℕ := []
  position_change : ℚ := 0
  deriving Repr, DecidableEq

/-- A season's driver mapping (`drivers.json`): insertion-ordered map from
driver display name to record, embedded as an association list. -/
abbrev DriversMap := List (String × DriverRec)

/-- Dict lookup `m.get(k)`. -/
def lookup (m : DriversMap) (k : String) : Option DriverRec :=
  (m.find? (fun p => p.1 = k)).map (fun p => p.2)

/-- Dict assignment `m[k] = v` for a key already present: replaces the value
in place, keeping insertion order. -/
def setKey (m : DriversMap) (k : String) (v : DriverRec) : DriversMap :=
  m.map (fun p => if p.1 = k then (k, v) else p)

/-- Python `dict.setdefault(k, v0)`: inserts at the end iff the key is
absent. -/
def setdefault (m : DriversMap) (k : String) (v0 : DriverRec) : DriversMap :=
  if (m.find? (fun p => p.1 = k)).isSome then m else m ++ [(k, v0)]

/-- The fresh per-driver dict created by `drivers_map.setdefault(name, ...)`
in `ingest_iracing_event` (all counters zero; `race_distances` is added on
first use, which coincides with the empty default). -/
def freshRec (country : String) : DriverRec :=
  { country := country }

/-- One-based finish position: `fin_1 = fp + 1` when `finish_position` is a
non-negative int, else `None`. -/
def fin1 (row : JsonRow) : Option ℤ :=
  match row.finish_position with
  | some fp => if 0 ≤ fp then some (fp + 1) else none
  | none => none

/-- The `qual_lookup` dict built from the QUALIFY session rows: maps a
stripped non-empty display name to its row, later rows overwriting earlier
ones. -/
def qualLookupFn (qs : List JsonRow) (name : String) : Option JsonRow :=
  (qs.filter (fun q => pyStrip q.display_name = name)).getLast?

/-- One-based starting position with the source's fallback chain: the row's
own `starting_position` when a non-negative int; else the qualifying row's
`finish_position`; else `fin_1 + 5`; else `None`. -/
def start1 (qlook : Option JsonRow) (fin : Option ℤ) (row : JsonRow) : Option ℤ :=
  let fallback : Option ℤ :=
    let fromQual : Option ℤ :=
      match qlook with
      | some q =>
          match q.finish_position with
          | some qp => if 0 ≤ qp then some (qp + 1) else none
          | none => none
      | none => none
    match fromQual with
    | some v => some v
    | none => match fin with
              | some f => some (f + 5)
              | none => none
  match row.starting_position with
  | some sp => if 0 ≤ sp then some (sp + 1) else fallback
  | none => fallback

/-- The inner `wavg` helper of `ingest_iracing_event` (and, with `ra` a
season race count, of `_aggregate_career`):
`(prev*rp + add*ra) / (rp+ra)` when the total weight is positive, else 0. -/
def wavgQ (prev add : ℚ) (rp ra : ℕ) : ℚ :=
  if 0 < rp + ra then (prev * rp + add * ra) / (rp + ra) else 0

/-- The race distance of one payload: the `laps_complete` of the first row
whose `finish_position` is 0 (the winner); if that is 0 (no winner row, or
winner completed 0 laps), the maximum `laps_complete` over all rows. -/
def raceDistance (rs : List JsonRow) : ℕ :=
  let fromWinner :=
    match rs.find? (fun r => r.finish_position = some 0) with
    | some r => r.laps_complete
    | none => 0
  if fromWinner = 0 then (rs.map (fun r => r.laps_complete)).foldr max 0
  else fromWinner

/-- The fastest positive `best_lap_time` over the race rows (`none` when no
row has a positive time, which embeds the `inf` sentinel never comparing
equal to a real time). -/
def fastestLap (rs : List JsonRow) : Option ℚ :=
  ((rs.map (fun r => r.best_lap_time)).filter (fun t => 0 < t)).foldl
    (fun acc t =>
      match acc with
      | none => some t
      | some m => some (min m t)) none

/-- Counter updates of one row: `races += 1`; `wins`/`podiums`/`top10s`
when the one-based finish is 1 / ≤ 3 / ≤ 10; `poles` when the one-based
start is 1. -/
def applyCounters (fin st : Option ℤ) (d : DriverRec) : DriverRec :=
  let d1 := { d with races := d.races + 1 }
  let d2 :=
    match fin with
    | some f =>
        let da := if f = 1 then { d1 with wins := d1.wins + 1 } else d1
        let db := if f ≤ 3 then { da with podiums := da.podiums + 1 } else da
        if f ≤ 10 then { db with top10s := db.top10s + 1 } else db
    | none => d1
  match st with
  | some s => if s = 1 then { d2 with poles := d2.poles + 1 } else d2
  | none => d2

/-- Running weighted-average updates of one row, with `ra = 1`:
`avg_finish` only when a finish is present, `avg_start` only when a start is
present, `avg_incidents` always.  The hidden weight `rp` is not yet
incremented here (the source reads `_rp` once and writes `rp + ra` later). -/
def applyAverages (fin st : Option ℤ) (inc : ℚ) (d : DriverRec) : DriverRec :=
  let rp := d.rp
  let d1 :=
    match fin with
    | some f => { d with avg_finish := wavgQ d.avg_finish f rp 1 }
    | none => d
  let d2 :=
    match st with
    | some s => { d1 with avg_start := wavgQ d1.avg_start s rp 1 }
    | none => d1
  { d2 with avg_incidents := wavgQ d2.avg_incidents inc rp 1 }

/-- Lap bookkeeping of one row: accumulate `laps_complete`/`laps_lead` and
append the race distance to `race_distances` when it is positive. -/
def applyLaps (rs : List JsonRow) (row : JsonRow) (d : DriverRec) : DriverRec :=
  let d1 := { d with laps_complete := d.laps_complete + row.laps_complete,
                     laps_lead := d.laps_lead + row.laps_lead }
  let rd := raceDistance rs
  if 0 < rd then { d1 with race_distances := d1.race_distances ++ [rd] } else d1

/-- Fastest-lap credit: increment `fastest_laps` when the row has a positive
`best_lap_time` equal to the fastest positive time of the race. -/
def applyFastest (rs : List JsonRow) (row : JsonRow) (d : DriverRec) : DriverRec :=
  if 0 < row.best_lap_time ∧ fastestLap rs = some row.best_lap_time then
    { d with fastest_laps := d.fastest_laps + 1 }
  else d

/-- Tail of the per-row update: `_rp += 1`, `points += pts`, and the
cumulative `position_change += start - finish` when both are present. -/
def applyTail (fin st : Option ℤ) (pts : ℚ) (d : DriverRec) : DriverRec :=
  let d1 := { d with rp := d.rp + 1, points := d.points + pts }
  match st, fin with
  | some s, some f =>
      { d1 with position_change := d1.position_change + ((s : ℚ) - (f : ℚ)) }
  | _, _ => d1

/-- The full per-row record update of `ingest_iracing_event`, applied to the
driver's current record. -/
def updateRec (rs qs : List JsonRow) (row : JsonRow) (d : DriverRec) : DriverRec :=
  let name := pyStrip row.display_name
  let fin := fin1 row
  let st := start1 (qualLookupFn qs name) fin row
  applyTail fin st row.champ_points
    (applyFastest rs row
      (applyLaps rs row
        (applyAverages fin st row.incidents
          (applyCounters fin st d))))

/-- One iteration of the row loop of `ingest_iracing_event`: skip rows with
an empty stripped name; otherwise `setdefault` the record, backfill the
country when the stored one is empty, and apply the per-row update. -/
def ingestRow (rs qs : List JsonRow) (m : DriversMap) (row : JsonRow) : DriversMap :=
  let name := pyStrip row.display_name
  if name = "" then m
  else
    let country := pyLower row.country_code
    let m1 := setdefault m name (freshRec country)
    let d0 := (lookup m1 name).getD (freshRec country)
    let d1 := if country ≠ "" ∧ d0.country = "" then { d0 with country := country } else d0
    setKey m1 name (updateRec rs qs row d1)

/-- End-of-payload rounding of one record's three averages to 3 decimal
places. -/
def roundRec3 (d : DriverRec) : DriverRec :=
  { d with avg_incidents := pyRound 3 d.avg_incidents,
           avg_start := pyRound 3 d.avg_start,
           avg_finish := pyRound 3 d.avg_finish }

/-- End-of-payload rounding: the three averages of every stored driver are
rounded to 3 decimal places. -/
def roundAvgs (m : DriversMap) : DriversMap :=
  m.map (fun p => (p.1, roundRec3 p.2))

/-- `ingest_iracing_event`: locate the RACE session (error when absent, as
the `ValueError` raised before any mutation), fold every row into the
season's driver map, round the averages, and return the new map together
with `(drivers_updated, rows_processed)` — both count the rows with a
non-empty stripped name, since the loop body runs to its end on every such
row. -/
def ingestEvent (p : EventPayload) (m : DriversMap) :
    Except String (DriversMap × ℕ × ℕ) :=
  let sessions := p.session_results
  let qualSessions := sessions.filter (fun s => pyUpper s.simsession_name = "QUALIFY")
  let raceSessions := sessions.filter (fun s => pyUpper s.simsession_name = "RACE")
  match raceSessions with
  | [] => Except.error "No RACE session found"
  | rsess :: _ =>
      let raceResults := rsess.results
      let qualResults :=
        match qualSessions with
        | [] => []
        | q :: _ => q.results
      let m1 := raceResults.foldl (ingestRow raceResults qualResults) m
      let processed := (raceResults.filter (fun r => pyStrip r.display_name ≠ "")).length
      Except.ok (roundAvgs m1, processed, processed)

/-! ### Career aggregation (`_aggregate_career`) -/

/-- Folding one season's record for a driver into the career accumulator:
pure sums for counters and accumulators, and the weighted-average rule with
`ra` the season's `races` count and `rp` the hidden accumulated weight. -/
def careerStep (o d : DriverRec) : DriverRec :=
  let ra := d.races
  let rp := o.rp
  { o with
      races := o.races + d.races,
      wins := o.wins + d.wins,
      poles := o.poles + d.poles,
      podiums := o.podiums + d.podiums,
      top10s := o.top10s + d.top10s,
      points := o.points + d.points,
      laps_complete := o.laps_complete + d.laps_complete,
      laps_lead := o.laps_lead + d.laps_lead,
      fastest_laps := o.fastest_laps + d.fastest_laps,
      race_distances := o.race_distances ++ d.race_distances,
      avg_incidents := wavgQ o.avg_incidents d.avg_incidents rp ra,
      avg_start := wavgQ o.avg_start d.avg_start rp ra,
      avg_finish := wavgQ o.avg_finish d.avg_finish rp ra,
      position_change := o.position_change + d.position_change,
      rp := rp + ra }

/-- The career record of one driver: every season's record for that driver
(in season-folding order) folded into the zero accumulator created by
`out.setdefault`. -/
def aggregateDriver (l : List DriverRec) (country : String) : DriverRec :=
  l.foldl careerStep (freshRec country)

/-- The final rounding of the three career averages to 2 decimal places. -/
def roundAvgs2 (d : DriverRec) : DriverRec :=
  { d with avg_incidents := pyRound 2 d.avg_incidents,
           avg_start := pyRound 2 d.avg_start,
           avg_finish := pyRound 2 d.avg_finish }

/-- The career view of one driver as `_aggregate_career` leaves it (the
derived percentage fields are recomputed post-hoc from the summed counters
and are not part of any claim here). -/
def aggregateDriverFinal (l : List DriverRec) (country : String) : DriverRec :=
  roundAvgs2 (aggregateDriver l country)

/-! ### Reversal (`_remove_ingested_data`) -/

/-- The per-driver reversal info extracted from a deleted payload's row.
Unlike ingestion, there is no qualifying or `fin+5` fallback for the start
position here. -/
structure DeletedInfo where
  finish : Option ℤ := none
  start : Option ℤ := none
  incidents : ℚ := 0
  points : ℚ := 0
  deriving Repr, DecidableEq

/-- One-based starting position without any fallback, as the reversal path
computes it. -/
def start1Raw (row : JsonRow) : Option ℤ :=
  match row.starting_position with
  | some sp => if 0 ≤ sp then some (sp + 1) else none
  | none => none

/-- The reversal info of one row. -/
def deletedInfoOfRow (row : JsonRow) : DeletedInfo :=
  { finish := fin1 row,
    start := start1Raw row,
    incidents := row.incidents,
    points := row.champ_points }

/-- Dict update used while building `deleted_races`: replace in place when
the key exists, else append. -/
def upsertInfo (l : List (String × DeletedInfo)) (k : String) (v : DeletedInfo) :
    List (String × DeletedInfo) :=
  if (l.find? (fun p => p.1 = k)).isSome then
    l.map (fun p => if p.1 = k then (k, v) else p)
  else l ++ [(k, v)]

/-- The `deleted_races` dict of `_remove_ingested_data`: stripped non-empty
names mapped to their reversal info, later rows overwriting earlier ones. -/
def deletedRaces (results : List JsonRow) : List (String × DeletedInfo) :=
  results.foldl
    (fun acc row =>
      let name := pyStrip row.display_name
      if name = "" then acc else upsertInfo acc name (deletedInfoOfRow row)) []

/-- Reversal of one driver's record.  The boolean is the contribution to
`season_modified`.  `Except.error ()` embeds the `TypeError` Python raises
on `None <= 3` / `None <= 10` when the deleted row had no valid finish but
the stored record has podiums (resp. top10s); the enclosing per-season
`try/except` then skips the season.  The `incidents` branch of the source
reads a key the driver dict never has, so it never fires and has no
counterpart here. -/
def revRaces (d : DriverRec) : DriverRec × Bool :=
  if 0 < d.races then ({ d with races := d.races - 1 }, true) else (d, false)

/-- Reversal step for `wins`: `race_info["finish"] == 1 and wins > 0`. -/
def revWins (info : DeletedInfo) (s : DriverRec × Bool) : DriverRec × Bool :=
  if info.finish = some 1 ∧ 0 < s.1.wins then ({ s.1 with wins := s.1.wins - 1 }, true)
  else s

/-- Reversal step for `poles`: `race_info["start"] == 1 and poles > 0`. -/
def revPoles (info : DeletedInfo) (s : DriverRec × Bool) : DriverRec × Bool :=
  if info.start = some 1 ∧ 0 < s.1.poles then ({ s.1 with poles := s.1.poles - 1 }, true)
  else s

/-- Reversal step for `podiums`: `podiums > 0 and race_info["finish"] <= 3`,
whose comparison raises `TypeError` when the finish is `None`. -/
def revPodiums (info : DeletedInfo) (s : DriverRec × Bool) :
    Except Unit (DriverRec × Bool) :=
  if 0 < s.1.podiums then
    match info.finish with
    | none => Except.error ()
    | some f =>
        Except.ok (if f ≤ 3 then ({ s.1 with podiums := s.1.podiums - 1 }, true) else s)
  else Except.ok s

/-- Reversal step for `top10s`, like `revPodiums` with bound 10. -/
def revTop10s (info : DeletedInfo) (s : DriverRec × Bool) :
    Except Unit (DriverRec × Bool) :=
  if 0 < s.1.top10s then
    match info.finish with
    | none => Except.error ()
    | some f =>
        Except.ok (if f ≤ 10 then ({ s.1 with top10s := s.1.top10s - 1 }, true) else s)
  else Except.ok s

/-- Reversal step for `points`: `points > 0` guards
`points = max(0, points - race_info["points"])`. -/
def revPoints (info : DeletedInfo) (s : DriverRec × Bool) : DriverRec × Bool :=
  if 0 < s.1.points then ({ s.1 with points := max 0 (s.1.points - info.points) }, true)
  else s

def reverseDriver (info : DeletedInfo) (d : DriverRec) :
    Except Unit (DriverRec × Bool) :=
  match revPodiums info (revPoles info (revWins info (revRaces d))) with
  | Except.error e => Except.error e
  | Except.ok s4 =>
      match revTop10s info s4 with
      | Except.error e => Except.error e
      | Except.ok s5 => Except.ok (revPoints info s5)

/-- One iteration of the reversal loop over `deleted_races`: a deleted
driver absent from the season is skipped, a present one is reversed and
written back, accumulating `season_modified`. -/
def revStep (st : DriversMap × Bool) (p : String × DeletedInfo) :
    Except Unit (DriversMap × Bool) :=
  match lookup st.1 p.1 with
  | none => Except.ok st
  | some d =>
      (reverseDriver p.2 d).map (fun q => (setKey st.1 p.1 q.1, st.2 || q.2))

/-- The inner loop of `_remove_ingested_data` over one season's driver map:
every deleted driver present in the map is reversed; an error anywhere
aborts the season. -/
def reverseSeasonDrivers (dels : List (String × DeletedInfo)) (m : DriversMap) :
    Except Unit (DriversMap × Bool) :=
  dels.foldlM revStep (m, false)

/-- Processing of one season: on an exception the season keeps its stored
state and is not reported; on success it is saved (and reported) only when
it was modified. -/
def reverseOneSeason (dels : List (String × DeletedInfo)) (m : DriversMap) :
    DriversMap × Bool :=
  match reverseSeasonDrivers dels m with
  | Except.error _ => (m, false)
  | Except.ok (m', modified) => if modified then (m', true) else (m, false)

/-- `_remove_ingested_data` over an already parsed payload: recover the
RACE rows (returning no change when absent or empty), build `deleted_races`,
and reverse every season, returning the new season stores and the affected
season names. -/
def removeIngestedData (p : EventPayload) (seasons : List (String × DriversMap)) :
    List (String × DriversMap) × List String :=
  let raceSessions := p.session_results.filter (fun s => pyUpper s.simsession_name = "RACE")
  match raceSessions with
  | [] => (seasons, [])
  | rsess :: _ =>
      let results := rsess.results
      if results = [] then (seasons, [])
      else
        let dels := deletedRaces results
        if dels = [] then (seasons, [])
        else
          let processed := seasons.map (fun sp => (sp.1, reverseOneSeason dels sp.2))
          (processed.map (fun q => (q.1, q.2.1)),
           (processed.filter (fun q => q.2.2)).map (fun q => q.1))

/-! ### Duplicate detection and the upload pipeline -/

/-- Raw payload bytes. -/
abbrev Bytes := List ℕ

/-- The filename filter of `_is_duplicate_json` / `list_uploaded_jsons`:
only files whose lower-cased name ends in `".json"` are inspected. -/
def jsonNamed (fn : String) : Bool :=
  pyEndsWith (pyLower fn) ".json"

/-- `_is_duplicate_json`, with the stored uploads directory embedded as an
association list of filename and bytes, and the SHA-256-based
`_generate_content_hash` as an explicit function `h` of the bytes (all that
the claims use is that it is a deterministic function of the content).
Returns `(is_duplicate, existing_filename)`. -/
def isDuplicateJson (h : Bytes → String) (uploads : List (String × Bytes))
    (content : Bytes) : Bool × String :=
  match uploads.find? (fun p => jsonNamed p.1 ∧ h p.2 = h content) with
  | some p => (true, p.1)
  | none => (false, "")

/-- `_sanitize_filename`: replace filesystem-unsafe characters by `'_'`,
truncate to 100 characters, strip. -/
def sanitizeFilename (name : String) : String :=
  let unsafeChars : List Char := ['<', '>', ':', '"', '/', '\\', '|', '?', '*']
  let replaced := name.data.map (fun c => if c ∈ unsafeChars then '_' else c)
  let truncated := if 100 < replaced.length then replaced.take 100 else replaced
  pyStrip (String.mk truncated)

/-- The durable state the upload pipeline touches: the uploads directory and
the per-season driver stores. -/
structure UploadState where
  uploads : List (String × Bytes) := []
  seasons : List (String × DriversMap) := []
  deriving Repr, DecidableEq

/-- `load_season_drivers`: a missing season store reads as empty. -/
def getSeason (seasons : List (String × DriversMap)) (name : String) : DriversMap :=
  match seasons.find? (fun p => p.1 = name) with
  | some p => p.2
  | none => []

/-- `save_season_drivers`: replace the season's store, creating it when
absent. -/
def setSeason (seasons : List (String × DriversMap)) (name : String) (m : DriversMap) :
    List (String × DriversMap) :=
  if (seasons.find? (fun p => p.1 = name)).isSome then
    seasons.map (fun p => if p.1 = name then (name, m) else p)
  else seasons ++ [(name, m)]

/-- Outcome of one upload attempt, carrying the resulting durable state (on
every refusal the state is the unchanged input state). -/
inductive UploadResult where
  | ok (st : UploadState) (updated processed : ℕ)
  | duplicatePayload (existing : String) (st : UploadState)
  | malformedPayload (st : UploadState)
  | notJson (st : UploadState)
  deriving DecidableEq

/-- The upload path: `upload_cmd` (extension check, then the duplicate check
refusing before any mutation) followed by the season-select callback
(decode, ingest, then store the raw bytes under
`f"{stamp}_{sanitized}"`).  `decode` embeds `json.loads` plus the
extraction of the payload dict; a parse failure, like a payload without a
RACE session, is caught by the callback's `except` after no state was
written. -/
def uploadCmd (h : Bytes → String) (decode : Bytes → Option EventPayload)
    (st : UploadState) (filename stamp season : String) (content : Bytes) :
    UploadResult :=
  if ¬ jsonNamed filename then UploadResult.notJson st
  else
    let dup := isDuplicateJson h st.uploads content
    if dup.1 then UploadResult.duplicatePayload dup.2 st
    else
      match decode content with
      | none => UploadResult.malformedPayload st
      | some p =>
          match ingestEvent p (getSeason st.seasons season) with
          | Except.error _ => UploadResult.malformedPayload st
          | Except.ok (m', upd, proc) =>
              let outName := stamp ++ "_" ++ sanitizeFilename filename
              UploadResult.ok
                { uploads := st.uploads ++ [(outName, content)],
                  seasons := setSeason st.seasons season m' } upd proc

/-! ### Ranking (`_sort_key`, `_rows_from_dataset`) -/

/-- A display row built by `_rows_from_dataset` (season driver dicts carry
no stored `*_pct` keys, so the `if pct == 0 and ... > 0: recompute` pattern
of the source reduces to the recomputation guarded by a positive
denominator). -/
structure RankRow where
  name : String
  points : ℚ
  races : ℕ
  wins : ℕ
  wins_pct : ℚ
  poles : ℕ
  poles_pct : ℚ
  podiums : ℕ
  podiums_pct : ℚ
  top10s : ℕ
  top10s_pct : ℚ
  avg_incidents : ℚ
  avg_start : ℚ
  avg_finish : ℚ
  laps_complete : ℕ
  laps_complete_pct : ℚ
  laps_lead : ℕ
  laps_lead_pct : ℚ
  fastest_laps : ℕ
  race_distances : List ℕ
  position_change : ℚ
  deriving Repr, DecidableEq

/-- Percentage recomputation `round((num / den) * 100, 1)` guarded by a
positive denominator. -/
def pctOf (num den : ℕ) : ℚ :=
  if 0 < den then pyRound 1 (((num : ℚ) / (den : ℚ)) * 100) else 0

/-- The row `_rows_from_dataset` builds for one `(name, record)` pair. -/
def rowOf (p : String × DriverRec) : RankRow :=
  let d := p.2
  let total := d.race_distances.sum
  { name := p.1,
    points := d.points,
    races := d.races,
    wins := d.wins,
    wins_pct := pctOf d.wins d.races,
    poles := d.poles,
    poles_pct := pctOf d.poles d.races,
    podiums := d.podiums,
    podiums_pct := pctOf d.podiums d.races,
    top10s := d.top10s,
    top10s_pct := pctOf d.top10s d.races,
    avg_incidents := pyRound 2 d.avg_incidents,
    avg_start := pyRound 2 d.avg_start,
    avg_finish := pyRound 2 d.avg_finish,
    laps_complete := d.laps_complete,
    laps_complete_pct := pctOf d.laps_complete total,
    laps_lead := d.laps_lead,
    laps_lead_pct := pctOf d.laps_lead total,
    fastest_laps := d.fastest_laps,
    race_distances := d.race_distances,
    position_change := d.position_change }

/-- `row.get(metric, 0)` under `safe_float`: the numeric field named by the
metric key, 0 for an unknown key (and for the non-numeric `name` field). -/
def rowMetric (metric : String) (r : RankRow) : ℚ :=
  if metric = "points" then r.points
  else if metric = "races" then (r.races : ℚ)
  else if metric = "wins" then (r.wins : ℚ)
  else if metric = "wins_pct" then r.wins_pct
  else if metric = "poles" then (r.poles : ℚ)
  else if metric = "poles_pct" then r.poles_pct
  else if metric = "podiums" then (r.podiums : ℚ)
  else if metric = "podiums_pct" then r.podiums_pct
  else if metric = "top10s" then (r.top10s : ℚ)
  else if metric = "top10s_pct" then r.top10s_pct
  else if metric = "avg_incidents" then r.avg_incidents
  else if metric = "avg_start" then r.avg_start
  else if metric = "avg_finish" then r.avg_finish
  else if metric = "laps_complete" then (r.laps_complete : ℚ)
  else if metric = "laps_complete_pct" then r.laps_complete_pct
  else if metric = "laps_lead" then (r.laps_lead : ℚ)
  else if metric = "laps_lead_pct" then r.laps_lead_pct
  else if metric = "fastest_laps" then (r.fastest_laps : ℚ)
  else if metric = "position_change" then r.position_change
  else 0

/-- `_sort_key`: the metric value, negated for the three lower-is-better
average metrics. -/
def sortKeyQ (metric : String) (r : RankRow) : ℚ :=
  let v := rowMetric metric r
  if metric = "avg_start" ∨ metric = "avg_finish" ∨ metric = "avg_incidents" then -v
  else v

/-- The comparison `rows.sort(key=..., reverse=True)` orders by: `a` may
come before `b` iff `a`'s sort key is at least `b`'s. -/
def rankLe (metric : String) (a b : RankRow) : Prop :=
  sortKeyQ metric b ≤ sortKeyQ metric a

instance (metric : String) : DecidableRel (rankLe metric) :=
  fun a b => inferInstanceAs (Decidable (sortKeyQ metric b ≤ sortKeyQ metric a))

/-- `_rows_from_dataset` without a limit: build the rows in dict order and
sort them descending by sort key.  Python's `list.sort` is stable, and a
stable sort's output is uniquely determined by the input order and the
total preorder, so the stable `List.insertionSort` embeds it exactly. -/
def rowsFromDataset (dataset : DriversMap) (metric : String) : List RankRow :=
  List.insertionSort (rankLe metric) (dataset.map rowOf)

/-! ### Sequences of ingestions -/

/-- A sequence of ingestions into one season store.  A failed ingestion
(`MalformedPayload`) raises before any mutation, so it leaves the store
unchanged. -/
def ingestSeq (ps : List EventPayload) (m : DriversMap) : DriversMap :=
  ps.foldl
    (fun acc p =>
      match ingestEvent p acc with
      | Except.ok q => q.1
      | Except.error _ => acc) m

/-! ## Claims

Each claim of the specification is settled by one theorem below; concrete
payloads and records used by them follow.  The lemmas state how each stage
of the per-row update transforms the record's fields. -/

lemma applyCounters_fields (fin st : Option ℤ) (d : DriverRec) :
    (applyCounters fin st d).avg_finish = d.avg_finish ∧
    (applyCounters fin st d).avg_start = d.avg_start ∧
    (applyCounters fin st d).avg_incidents = d.avg_incidents ∧
    (applyCounters fin st d).rp = d.rp ∧
    (applyCounters fin st d).races = d.races + 1 ∧
    (applyCounters fin st d).race_distances = d.race_distances ∧
    (applyCounters fin st d).laps_complete = d.laps_complete ∧
    (applyCounters fin st d).laps_lead = d.laps_lead := by
  cases fin <;> cases st <;> simp only [applyCounters] <;>
    first
      | simp
      | (split_ifs <;> simp)

lemma applyAverages_fields (fin st : Option ℤ) (inc : ℚ) (d : DriverRec) :
    (applyAverages fin st inc d).rp = d.rp ∧
    (applyAverages fin st inc d).races = d.races ∧
    (applyAverages fin st inc d).wins = d.wins ∧
    (applyAverages fin st inc d).podiums = d.podiums ∧
    (applyAverages fin st inc d).top10s = d.top10s ∧
    (applyAverages fin st inc d).race_distances = d.race_distances ∧
    (applyAverages fin st inc d).laps_complete = d.laps_complete ∧
    (applyAverages fin st inc d).laps_lead = d.laps_lead ∧
    (applyAverages fin st inc d).avg_incidents = wavgQ d.avg_incidents inc d.rp 1 ∧
    (applyAverages fin st inc d).avg_finish =
      (match fin with
       | some f => wavgQ d.avg_finish f d.rp 1
       | none => d.avg_finish) ∧
    (applyAverages fin st inc d).avg_start =
      (match st with
       | some s => wavgQ d.avg_start s d.rp 1
       | none => d.avg_start) := by
  cases fin <;> cases st <;> simp [applyAverages]

lemma applyLaps_fields (rs : List JsonRow) (row : JsonRow) (d : DriverRec) :
    (applyLaps rs row d).avg_finish = d.avg_finish ∧
    (applyLaps rs row d).avg_start = d.avg_start ∧
    (applyLaps rs row d).avg_incidents = d.avg_incidents ∧
    (applyLaps rs row d).rp = d.rp ∧
    (applyLaps rs row d).races = d.races ∧
    (applyLaps rs row d).wins = d.wins ∧
    (applyLaps rs row d).podiums = d.podiums ∧
    (applyLaps rs row d).top10s = d.top10s ∧
    (applyLaps rs row d).laps_complete = d.laps_complete + row.laps_complete ∧
    (applyLaps rs row d).laps_lead = d.laps_lead + row.laps_lead ∧
    (applyLaps rs row d).race_distances =
      d.race_distances ++ (if 0 < raceDistance rs then [raceDistance rs] else []) := by
  simp only [applyLaps]; split_ifs <;> simp

lemma applyFastest_fields (rs : List JsonRow) (row : JsonRow) (d : DriverRec) :
    (applyFastest rs row d).avg_finish = d.avg_finish ∧
    (applyFastest rs row d).avg_start = d.avg_start ∧
    (applyFastest rs row d).avg_incidents = d.avg_incidents ∧
    (applyFastest rs row d).rp = d.rp ∧
    (applyFastest rs row d).races = d.races ∧
    (applyFastest rs row d).wins = d.wins ∧
    (applyFastest rs row d).podiums = d.podiums ∧
    (applyFastest rs row d).top10s = d.top10s ∧
    (applyFastest rs row d).laps_complete = d.laps_complete ∧
    (applyFastest rs row d).laps_lead = d.laps_lead ∧
    (applyFastest rs row d).race_distances = d.race_distances := by
  simp only [applyFastest]; split_ifs <;> simp

lemma applyTail_fields (fin st : Option ℤ) (pts : ℚ) (d : DriverRec) :
    (applyTail fin st pts d).avg_finish = d.avg_finish ∧
    (applyTail fin st pts d).avg_start = d.avg_start ∧
    (applyTail fin st pts d).avg_incidents = d.avg_incidents ∧
    (applyTail fin st pts d).rp = d.rp + 1 ∧
    (applyTail fin st pts d).races = d.races ∧
    (applyTail fin st pts d).wins = d.wins ∧
    (applyTail fin st pts d).podiums = d.podiums ∧
    (applyTail fin st pts d).top10s = d.top10s ∧
    (applyTail fin st pts d).laps_complete = d.laps_complete ∧
    (applyTail fin st pts d).laps_lead = d.laps_lead ∧
    (applyTail fin st pts d).race_distances = d.race_distances := by
  cases fin <;> cases st <;> simp [applyTail]

/-- How one row transforms the fields of the driver's record that the
claims are about, in terms of `fin1` and `start1`. -/
lemma updateRec_fields (rs qs : List JsonRow) (row : JsonRow) (d : DriverRec) :
    (updateRec rs qs row d).races = d.races + 1 ∧
    (updateRec rs qs row d).rp = d.rp + 1 ∧
    (updateRec rs qs row d).race_distances =
      d.race_distances ++ (if 0 < raceDistance rs then [raceDistance rs] else []) ∧
    (updateRec rs qs row d).avg_incidents = wavgQ d.avg_incidents row.incidents d.rp 1 ∧
    (updateRec rs qs row d).avg_finish =
      (match fin1 row with
       | some f => wavgQ d.avg_finish f d.rp 1
       | none => d.avg_finish) ∧
    (updateRec rs qs row d).avg_start =
      (match start1 (qualLookupFn qs (pyStrip row.display_name)) (fin1 row) row with
       | some s => wavgQ d.avg_start s d.rp 1
       | none => d.avg_start) := by
  have hc := applyCounters_fields (fin1 row)
    (start1 (qualLookupFn qs (pyStrip row.display_name)) (fin1 row) row) d
  set dc := applyCounters (fin1 row)
    (start1 (qualLookupFn qs (pyStrip row.display_name)) (fin1 row) row) d with hdc
  have ha := applyAverages_fields (fin1 row)
    (start1 (qualLookupFn qs (pyStrip row.display_name)) (fin1 row) row) row.incidents dc
  set da := applyAverages (fin1 row)
    (start1 (qualLookupFn qs (pyStrip row.display_name)) (fin1 row) row) row.incidents dc
    with hda
  have hl := applyLaps_fields rs row da
  set dl := applyLaps rs row da with hdl
  have hf := applyFastest_fields rs row dl
  set df := applyFastest rs row dl with hdf
  have ht := applyTail_fields (fin1 row)
    (start1 (qualLookupFn qs (pyStrip row.display_name)) (fin1 row) row) row.champ_points df
  simp only [updateRec]
  rw [← hdc, ← hda, ← hdl, ← hdf]
  obtain ⟨c1, c2, c3, c4, c5, c6, c7, c8⟩ := hc
  obtain ⟨a1, a2, a3, a4, a5, a6, a7, a8, a9, a10, a11⟩ := ha
  obtain ⟨l1, l2, l3, l4, l5, l6, l7, l8, l9, l10, l11⟩ := hl
  obtain ⟨f1, f2, f3, f4, f5, f6, f7, f8, f9, f10, f11⟩ := hf
  obtain ⟨t1, t2, t3, t4, t5, t6, t7, t8, t9, t10, t11⟩ := ht
  refine ⟨?_, ?_, ?_, ?_, ?_, ?_⟩
  · rw [t5, f5, l5, a2, c5]
  · rw [t4, f4, l4, a1, c4]
  · rw [t11, f11, l11, a6, c6]
  · rw [t3, f3, l3, a9, c3, c4]
  · rw [t1, f1, l1, a10, c1, c4]
  · rw [t2, f2, l2, a11, c2, c4]

/-- `wavgQ` with a single new sample is the running-mean rule. -/
lemma wavgQ_one (prev add : ℚ) (rp : ℕ) :
    wavgQ prev add rp 1 = (prev * rp + add) / (rp + 1) := by
  have h : 0 < rp + 1 := Nat.succ_pos rp
  simp only [wavgQ, if_pos h]
  push_cast
  ring_nf

/-- A three-element list permutes a three-element list in one of six ways. -/
lemma perm3_cases {α : Type} {x y z a b c : α} (h : [x, y, z].Perm [a, b, c]) :
    (x = a ∧ y = b ∧ z = c) ∨ (x = a ∧ y = c ∧ z = b) ∨
    (x = b ∧ y = a ∧ z = c) ∨ (x = b ∧ y = c ∧ z = a) ∨
    (x = c ∧ y = a ∧ z = b) ∨ (x = c ∧ y = b ∧ z = a) := by
  have hx : x ∈ [a, b, c] := h.mem_iff.mp (by simp)
  have perm2 : ∀ {u v p q : α}, [u, v].Perm [p, q] →
      (u = p ∧ v = q) ∨ (u = q ∧ v = p) := by
    intro u v p q h2
    have hu : u ∈ [p, q] := h2.mem_iff.mp (by simp)
    rcases (by simpa using hu : u = p ∨ u = q) with hup | huq
    · subst hup
      left
      exact ⟨rfl, by simpa [List.perm_singleton] using h2.cons_inv⟩
    · subst huq
      right
      have h2' : [u, v].Perm [u, p] := h2.trans (List.Perm.swap u p [])
      exact ⟨rfl, by simpa [List.perm_singleton] using h2'.cons_inv⟩
  rcases (by simpa using hx : x = a ∨ x = b ∨ x = c) with hxa | hxb | hxc
  · subst hxa
    rcases perm2 h.cons_inv with ⟨h1, h2⟩ | ⟨h1, h2⟩
    · exact Or.inl ⟨rfl, h1, h2⟩
    · exact Or.inr (Or.inl ⟨rfl, h1, h2⟩)
  · subst hxb
    have h' : [x, y, z].Perm [x, a, c] := h.trans (List.Perm.swap x a [c])
    rcases perm2 h'.cons_inv with ⟨h1, h2⟩ | ⟨h1, h2⟩
    · exact Or.inr (Or.inr (Or.inl ⟨rfl, h1, h2⟩))
    · exact Or.inr (Or.inr (Or.inr (Or.inl ⟨rfl, h1, h2⟩)))
  · subst hxc
    have step1 : [a, b, x].Perm [a, x, b] := List.Perm.cons a (List.Perm.swap x b [])
    have step2 : [a, x, b].Perm [x, a, b] := List.Perm.swap x a [b]
    have h' : [x, y, z].Perm [x, a, b] := h.trans (step1.trans step2)
    rcases perm2 h'.cons_inv with ⟨h1, h2⟩ | ⟨h1, h2⟩
    · exact Or.inr (Or.inr (Or.inr (Or.inr (Or.inl ⟨rfl, h1, h2⟩))))
    · exact Or.inr (Or.inr (Or.inr (Or.inr (Or.inr ⟨rfl, h1, h2⟩))))

/-- A one-row race payload for driver `"X"` finishing in one-based position
`f` (stored zero-based as `f - 1`). -/
def finRow1 (f : ℤ) : JsonRow :=
  { display_name := "X", finish_position := some (f - 1) }

/-- The payload holding only `finRow1 f` in its RACE session. -/
def finPayload (f : ℤ) : EventPayload :=
  { session_results := [{ simsession_name := "RACE", results := [finRow1 f] }] }

/-- Ingesting a payload whose RACE session holds exactly one named row is
the row update followed by the rounding pass. -/
lemma ingestEvent_single (row : JsonRow) (m : DriversMap)
    (hn : pyStrip row.display_name ≠ "") :
    ingestEvent { session_results := [{ simsession_name := "RACE", results := [row] }] } m =
      Except.ok (roundAvgs (ingestRow [row] [] m row), 1, 1) := by
  simp only [ingestEvent, List.filter]
  norm_num +decide [hn]

/-- Driver X after one-based finishes `[3]`. -/
def recX3 : DriverRec :=
  { races := 1, podiums := 1, top10s := 1, avg_start := 8, avg_finish := 3, rp := 1,
    position_change := 5 }

/-- Driver X after one-based finishes `[1]`. -/
def recX1 : DriverRec :=
  { races := 1, wins := 1, podiums := 1, top10s := 1, avg_start := 6, avg_finish := 1,
    rp := 1, position_change := 5 }

/-- Driver X after one-based finishes `[5]`. -/
def recX5 : DriverRec :=
  { races := 1, top10s := 1, avg_start := 10, avg_finish := 5, rp := 1,
    position_change := 5 }

/-- Driver X after finishes `{3, 1}` in either order. -/
def recX31 : DriverRec :=
  { races := 2, wins := 1, podiums := 2, top10s := 2, avg_start := 7, avg_finish := 2,
    rp := 2, position_change := 10 }

/-- Driver X after finishes `{3, 5}` in either order. -/
def recX35 : DriverRec :=
  { races := 2, podiums := 1, top10s := 2, avg_start := 9, avg_finish := 4, rp := 2,
    position_change := 10 }

/-- Driver X after finishes `{1, 5}` in either order. -/
def recX15 : DriverRec :=
  { races := 2, wins := 1, podiums := 1, top10s := 2, avg_start := 8, avg_finish := 3,
    rp := 2, position_change := 10 }

/-- Driver X after all three finishes `{3, 1, 5}`, in any order. -/
def recXF : DriverRec :=
  { races := 3, wins := 1, podiums := 2, top10s := 3, avg_start := 8, avg_finish := 3,
    rp := 3, position_change := 15 }

section C1Steps

/-- The simp set evaluating one single-row ingestion step concretely. -/
lemma c1_step_nil_3 : ingestEvent (finPayload 3) [] = Except.ok ([("X", recX3)], 1, 1) := by
  simp only [finPayload]
  rw [ingestEvent_single (finRow1 3) [] (by decide)]
  norm_num +decide [ingestRow, setdefault, setKey, lookup, freshRec, updateRec, finRow1,
    recX3, applyCounters, applyAverages, applyLaps, applyFastest, applyTail, fin1, start1,
    qualLookupFn, wavgQ, raceDistance, fastestLap, roundAvgs, roundRec3, pyRound,
    roundHalfEven]

lemma c1_step_nil_1 : ingestEvent (finPayload 1) [] = Except.ok ([("X", recX1)], 1, 1) := by
  simp only [finPayload]
  rw [ingestEvent_single (finRow1 1) [] (by decide)]
  norm_num +decide [ingestRow, setdefault, setKey, lookup, freshRec, updateRec, finRow1,
    recX1, applyCounters, applyAverages, applyLaps, applyFastest, applyTail, fin1, start1,
    qualLookupFn, wavgQ, raceDistance, fastestLap, roundAvgs, roundRec3, pyRound,
    roundHalfEven]

lemma c1_step_nil_5 : ingestEvent (finPayload 5) [] = Except.ok ([("X", recX5)], 1, 1) := by
  simp only [finPayload]
  rw [ingestEvent_single (finRow1 5) [] (by decide)]
  norm_num +decide [ingestRow, setdefault, setKey, lookup, freshRec, updateRec, finRow1,
    recX5, applyCounters, applyAverages, applyLaps, applyFastest, applyTail, fin1, start1,
    qualLookupFn, wavgQ, raceDistance, fastestLap, roundAvgs, roundRec3, pyRound,
    roundHalfEven]

lemma c1_step_3_1 : ingestEvent (finPayload 1) [("X", recX3)] =
    Except.ok ([("X", recX31)], 1, 1) := by
  simp only [finPayload]
  rw [ingestEvent_single (finRow1 1) _ (by decide)]
  norm_num +decide [ingestRow, setdefault, setKey, lookup, freshRec, updateRec, finRow1,
    recX3, recX31, applyCounters, applyAverages, applyLaps, applyFastest, applyTail, fin1,
    start1, qualLookupFn, wavgQ, raceDistance, fastestLap, roundAvgs, roundRec3, pyRound,
    roundHalfEven]

lemma c1_step_1_3 : ingestEvent (finPayload 3) [("X", recX1)] =
    Except.ok ([("X", recX31)], 1, 1) := by
  simp only [finPayload]
  rw [ingestEvent_single (finRow1 3) _ (by decide)]
  norm_num +decide [ingestRow, setdefault, setKey, lookup, freshRec, updateRec, finRow1,
    recX1, recX31, applyCounters, applyAverages, applyLaps, applyFastest, applyTail, fin1,
    start1, qualLookupFn, wavgQ, raceDistance, fastestLap, roundAvgs, roundRec3, pyRound,
    roundHalfEven]

lemma c1_step_3_5 : ingestEvent (finPayload 5) [("X", recX3)] =
    Except.ok ([("X", recX35)], 1, 1) := by
  simp only [finPayload]
  rw [ingestEvent_single (finRow1 5) _ (by decide)]
  norm_num +decide [ingestRow, setdefault, setKey, lookup, freshRec, updateRec, finRow1,
    recX3, recX35, applyCounters, applyAverages, applyLaps, applyFastest, applyTail, fin1,
    start1, qualLookupFn, wavgQ, raceDistance, fastestLap, roundAvgs, roundRec3, pyRound,
    roundHalfEven]

lemma c1_step_5_3 : ingestEvent (finPayload 3) [("X", recX5)] =
    Except.ok ([("X", recX35)], 1, 1) := by
  simp only [finPayload]
  rw [ingestEvent_single (finRow1 3) _ (by decide)]
  norm_num +decide [ingestRow, setdefault, setKey, lookup, freshRec, updateRec, finRow1,
    recX5, recX35, applyCounters, applyAverages, applyLaps, applyFastest, applyTail, fin1,
    start1, qualLookupFn, wavgQ, raceDistance, fastestLap, roundAvgs, roundRec3, pyRound,
    roundHalfEven]

lemma c1_step_1_5 : ingestEvent (finPayload 5) [("X", recX1)] =
    Except.ok ([("X", recX15)], 1, 1) := by
  simp only [finPayload]
  rw [ingestEvent_single (finRow1 5) _ (by decide)]
  norm_num +decide [ingestRow, setdefault, setKey, lookup, freshRec, updateRec, finRow1,
    recX1, recX15, applyCounters, applyAverages, applyLaps, applyFastest, applyTail, fin1,
    start1, qualLookupFn, wavgQ, raceDistance, fastestLap, roundAvgs, roundRec3, pyRound,
    roundHalfEven]

lemma c1_step_5_1 : ingestEvent (finPayload 1) [("X", recX5)] =
    Except.ok ([("X", recX15)], 1, 1) := by
  simp only [finPayload]
  rw [ingestEvent_single (finRow1 1) _ (by decide)]
  norm_num +decide [ingestRow, setdefault, setKey, lookup, freshRec, updateRec, finRow1,
    recX5, recX15, applyCounters, applyAverages, applyLaps, applyFastest, applyTail, fin1,
    start1, qualLookupFn, wavgQ, raceDistance, fastestLap, roundAvgs, roundRec3, pyRound,
    roundHalfEven]

lemma c1_step_31_5 : ingestEvent (finPayload 5) [("X", recX31)] =
    Except.ok ([("X", recXF)], 1, 1) := by
  simp only [finPayload]
  rw [ingestEvent_single (finRow1 5) _ (by decide)]
  norm_num +decide [ingestRow, setdefault, setKey, lookup, freshRec, updateRec, finRow1,
    recX31, recXF, applyCounters, applyAverages, applyLaps, applyFastest, applyTail, fin1,
    start1, qualLookupFn, wavgQ, raceDistance, fastestLap, roundAvgs, roundRec3, pyRound,
    roundHalfEven]

lemma c1_step_35_1 : ingestEvent (finPayload 1) [("X", recX35)] =
    Except.ok ([("X", recXF)], 1, 1) := by
  simp only [finPayload]
  rw [ingestEvent_single (finRow1 1) _ (by decide)]
  norm_num +decide [ingestRow, setdefault, setKey, lookup, freshRec, updateRec, finRow1,
    recX35, recXF, applyCounters, applyAverages, applyLaps, applyFastest, applyTail, fin1,
    start1, qualLookupFn, wavgQ, raceDistance, fastestLap, roundAvgs, roundRec3, pyRound,
    roundHalfEven]

lemma c1_step_15_3 : ingestEvent (finPayload 3) [("X", recX15)] =
    Except.ok ([("X", recXF)], 1, 1) := by
  simp only [finPayload]
  rw [ingestEvent_single (finRow1 3) _ (by decide)]
  norm_num +decide [ingestRow, setdefault, setKey, lookup, freshRec, updateRec, finRow1,
    recX15, recXF, applyCounters, applyAverages, applyLaps, applyFastest, applyTail, fin1,
    start1, qualLookupFn, wavgQ, raceDistance, fastestLap, roundAvgs, roundRec3, pyRound,
    roundHalfEven]

end C1Steps

/-- C1: per-row ingestion updates each of the three running averages by the
running-mean rule `newAvg = (oldAvg*oldWeight + newValue*1)/(oldWeight+1)`
(whenever the finish and start values are present, as they are for the
finished races the claim quantifies over) and then increments the hidden
weight `_rp` by one; and a driver whose one-based finishes across three
one-race payloads are `[3, 1, 5]` ends with `avg_finish = 3`, regardless of
the ingestion order. -/
theorem claim_C1 :
    (∀ (rs qs : List JsonRow) (row : JsonRow) (d : DriverRec) (f s : ℤ),
      fin1 row = some f →
      start1 (qualLookupFn qs (pyStrip row.display_name)) (fin1 row) row = some s →
      (updateRec rs qs row d).avg_finish =
        (d.avg_finish * d.rp + (f : ℚ) * 1) / (d.rp + 1) ∧
      (updateRec rs qs row d).avg_start =
        (d.avg_start * d.rp + (s : ℚ) * 1) / (d.rp + 1) ∧
      (updateRec rs qs row d).avg_incidents =
        (d.avg_incidents * d.rp + row.incidents * 1) / (d.rp + 1) ∧
      (updateRec rs qs row d).rp = d.rp + 1) ∧
    (∀ f1 f2 f3 : ℤ, [f1, f2, f3].Perm [3, 1, 5] →
      (lookup (ingestSeq [finPayload f1, finPayload f2, finPayload f3] []) "X").map
        DriverRec.avg_finish = some 3) := by
  constructor
  · intro rs qs row d f s hf hs
    obtain ⟨h1, h2, h3, h4, h5, h6⟩ := updateRec_fields rs qs row d
    refine ⟨?_, ?_, ?_, h2⟩
    · rw [h5, hf]
      simp only [wavgQ_one]
      ring_nf
    · rw [h6, hs]
      simp only [wavgQ_one]
      ring_nf
    · rw [h4, wavgQ_one]
      ring_nf
  · intro f1 f2 f3 hperm
    have hfin : (lookup [("X", recXF)] "X").map DriverRec.avg_finish = some 3 := by
      norm_num [lookup, recXF]
    rcases perm3_cases hperm with ⟨e1, e2, e3⟩ | ⟨e1, e2, e3⟩ | ⟨e1, e2, e3⟩ |
      ⟨e1, e2, e3⟩ | ⟨e1, e2, e3⟩ | ⟨e1, e2, e3⟩ <;> subst e1 <;> subst e2 <;> subst e3
    · simpa only [ingestSeq, List.foldl, c1_step_nil_3, c1_step_3_1, c1_step_31_5]
        using hfin
    · simpa only [ingestSeq, List.foldl, c1_step_nil_3, c1_step_3_5, c1_step_35_1]
        using hfin
    · simpa only [ingestSeq, List.foldl, c1_step_nil_1, c1_step_1_3, c1_step_31_5]
        using hfin
    · simpa only [ingestSeq, List.foldl, c1_step_nil_1, c1_step_1_5, c1_step_15_3]
        using hfin
    · simpa only [ingestSeq, List.foldl, c1_step_nil_5, c1_step_5_3, c1_step_35_1]
        using hfin
    · simpa only [ingestSeq, List.foldl, c1_step_nil_5, c1_step_5_1, c1_step_15_3]
        using hfin

/-- Witness for C1: both parts applied at concrete inputs — the scenario
row of Alice for the general running-mean rule, and the order `[5, 3, 1]`
for the permutation part. -/
theorem claim_C1_witness :
    ((updateRec [finRow1 3] [] (finRow1 3) recX1).avg_finish =
        (recX1.avg_finish * recX1.rp + (3 : ℚ) * 1) / (recX1.rp + 1) ∧
      (updateRec [finRow1 3] [] (finRow1 3) recX1).avg_start =
        (recX1.avg_start * recX1.rp + (8 : ℚ) * 1) / (recX1.rp + 1) ∧
      (updateRec [finRow1 3] [] (finRow1 3) recX1).avg_incidents =
        (recX1.avg_incidents * recX1.rp + (finRow1 3).incidents * 1) / (recX1.rp + 1) ∧
      (updateRec [finRow1 3] [] (finRow1 3) recX1).rp = recX1.rp + 1) ∧
    (lookup (ingestSeq [finPayload 5, finPayload 3, finPayload 1] []) "X").map
      DriverRec.avg_finish = some 3 :=
  ⟨claim_C1.1 [finRow1 3] [] (finRow1 3) recX1 3 8 (by decide) (by decide),
   claim_C1.2 5 3 1 (by decide)⟩

/-- A one-row race payload for `"X"` with `finish_position = -1` (DNF). -/
def dnfPayload : EventPayload :=
  { session_results :=
      [{ simsession_name := "RACE",
         results := [{ display_name := "X", finish_position := some (-1) }] }] }

/-- Driver X after a single one-based finish of 2. -/
def recY2 : DriverRec :=
  { races := 1, podiums := 1, top10s := 1, avg_start := 7, avg_finish := 2, rp := 1,
    position_change := 5 }

/-- Driver X after a finish of 2 followed by a DNF: `races` and the hidden
weight advanced, the averages untouched. -/
def recY2d : DriverRec :=
  { races := 2, podiums := 1, top10s := 1, avg_start := 7, avg_finish := 2, rp := 2,
    position_change := 5 }

/-- Driver X after finishes 2, DNF, 4: `avg_finish` is `(2*2+4)/3 = 8/3`
rounded to 3 places, not the mean `3` of the two finished races, because the
weight 2 counted the DNF race. -/
def recY10F : DriverRec :=
  { races := 3, podiums := 1, top10s := 2, avg_start := 7667/1000,
    avg_finish := 2667/1000, rp := 3, position_change := 10 }

lemma c10_step_nil_2 : ingestEvent (finPayload 2) [] = Except.ok ([("X", recY2)], 1, 1) := by
  simp only [finPayload]
  rw [ingestEvent_single (finRow1 2) [] (by decide)]
  norm_num +decide [ingestRow, setdefault, setKey, lookup, freshRec, updateRec, finRow1,
    recY2, applyCounters, applyAverages, applyLaps, applyFastest, applyTail, fin1, start1,
    qualLookupFn, wavgQ, raceDistance, fastestLap, roundAvgs, roundRec3, pyRound,
    roundHalfEven]

lemma c10_step_dnf : ingestEvent dnfPayload [("X", recY2)] =
    Except.ok ([("X", recY2d)], 1, 1) := by
  simp only [dnfPayload]
  rw [ingestEvent_single { display_name := "X", finish_position := some (-1) } _ (by decide)]
  norm_num +decide [ingestRow, setdefault, setKey, lookup, freshRec, updateRec,
    recY2, recY2d, applyCounters, applyAverages, applyLaps, applyFastest, applyTail, fin1,
    start1, qualLookupFn, wavgQ, raceDistance, fastestLap, roundAvgs, roundRec3, pyRound,
    roundHalfEven]

set_option maxRecDepth 4000 in
lemma c10_step_4 : ingestEvent (finPayload 4) [("X", recY2d)] =
    Except.ok ([("X", recY10F)], 1, 1) := by
  simp only [finPayload]
  rw [ingestEvent_single (finRow1 4) _ (by decide)]
  norm_num +decide [ingestRow, setdefault, setKey, lookup, freshRec, updateRec, finRow1,
    recY2d, recY10F, applyCounters, applyAverages, applyLaps, applyFastest, applyTail,
    fin1, start1, qualLookupFn, wavgQ, raceDistance, fastestLap, roundAvgs, roundRec3,
    pyRound, roundHalfEven, Int.fract, -Int.self_sub_floor]

/-- C10: a row whose finish position is absent or negative (`fin1 = none`,
a DNF) still advances `races` and the hidden weight `_rp` by one while
leaving `avg_finish` untouched; consequently `avg_finish` is not the mean of
the finished races: finishes 2, DNF, 4 end at `8/3` (rounded to `2.667`),
not at `(2+4)/2 = 3`. -/
theorem claim_C10 :
    (∀ (rs qs : List JsonRow) (row : JsonRow) (d : DriverRec),
      fin1 row = none →
      (updateRec rs qs row d).races = d.races + 1 ∧
      (updateRec rs qs row d).rp = d.rp + 1 ∧
      (updateRec rs qs row d).avg_finish = d.avg_finish) ∧
    ((lookup (ingestSeq [finPayload 2, dnfPayload, finPayload 4] []) "X").map
        DriverRec.avg_finish = some (2667/1000) ∧
      (2667 / 1000 : ℚ) ≠ (2 + 4) / 2) := by
  constructor
  · intro rs qs row d hf
    obtain ⟨h1, h2, h3, h4, h5, h6⟩ := updateRec_fields rs qs row d
    rw [hf] at h5
    exact ⟨h1, h2, h5⟩
  · constructor
    · simp only [ingestSeq, List.foldl, c10_step_nil_2, c10_step_dnf, c10_step_4]
      norm_num [lookup, recY10F]
    · norm_num

/-- Witness for C10: the DNF row of the demonstration payload for the
general part, and the concrete three-race demonstration itself. -/
theorem claim_C10_witness :
    ((updateRec [] [] { display_name := "X", finish_position := some (-1) } recY2).races =
        recY2.races + 1 ∧
      (updateRec [] [] { display_name := "X", finish_position := some (-1) } recY2).rp =
        recY2.rp + 1 ∧
      (updateRec [] [] { display_name := "X", finish_position := some (-1) } recY2).avg_finish =
        recY2.avg_finish) ∧
    (lookup (ingestSeq [finPayload 2, dnfPayload, finPayload 4] []) "X").map
      DriverRec.avg_finish = some (2667/1000) :=
  ⟨claim_C10.1 [] [] { display_name := "X", finish_position := some (-1) } recY2 (by decide),
   claim_C10.2.1⟩

/-- The scalar shadow of the career fold for one average: state is the
accumulated average and weight, one step is `wavgQ` plus the weight sum. -/
def wfold (l : List (ℚ × ℕ)) (a : ℚ) (r : ℕ) : ℚ × ℕ :=
  l.foldl (fun s p => (wavgQ s.1 p.1 s.2 p.2, s.2 + p.2)) (a, r)

/-- Weighted sum of the per-season averages. -/
def wSum (l : List (ℚ × ℕ)) : ℚ :=
  (l.map (fun p => p.1 * (p.2 : ℚ))).sum

/-- Total weight of the seasons. -/
def wTot (l : List (ℚ × ℕ)) : ℕ :=
  (l.map Prod.snd).sum

/-- Closed form of the incremental weighted average fold: the weighted mean
of all samples (with `q / 0 = 0` covering the no-weight case). -/
lemma wfold_closed (l : List (ℚ × ℕ)) (a : ℚ) (r : ℕ) (h : r = 0 → a = 0) :
    (wfold l a r).1 = (a * r + wSum l) / ((r : ℚ) + (wTot l : ℚ)) ∧
    (wfold l a r).2 = r + wTot l := by
  induction l generalizing a r with
  | nil =>
      refine ⟨?_, by simp [wfold, wTot]⟩
      by_cases hr : r = 0
      · subst hr
        simp [wfold, wSum, wTot, h rfl]
      · have hr' : ((r : ℚ)) ≠ 0 := Nat.cast_ne_zero.mpr hr
        simp only [wfold, List.foldl, wSum, List.map_nil, List.sum_nil, wTot, add_zero]
        field_simp
  | cons p t ih =>
      have hstep : wfold (p :: t) a r = wfold t (wavgQ a p.1 r p.2) (r + p.2) := rfl
      have hcond : r + p.2 = 0 → wavgQ a p.1 r p.2 = 0 := by
        intro h0
        simp [wavgQ, h0]
      obtain ⟨ih1, ih2⟩ := ih (wavgQ a p.1 r p.2) (r + p.2) hcond
      have hnum : wavgQ a p.1 r p.2 * ((r : ℚ) + (p.2 : ℚ)) = a * r + p.1 * p.2 := by
        by_cases hz : 0 < r + p.2
        · have hq : ((r : ℚ) + (p.2 : ℚ)) ≠ 0 := by
            have : (0 : ℚ) < (r : ℚ) + (p.2 : ℚ) := by exact_mod_cast hz
            linarith
          simp only [wavgQ, if_pos hz]
          field_simp
        · have hr0 : r = 0 ∧ p.2 = 0 := by omega
          simp [wavgQ, hz, hr0.1, hr0.2]
      constructor
      · rw [hstep, ih1]
        have e1 : wSum (p :: t) = p.1 * (p.2 : ℚ) + wSum t := by
          simp [wSum]
        have e2 : (wTot (p :: t) : ℚ) = (p.2 : ℚ) + (wTot t : ℚ) := by
          simp only [wTot, List.map_cons, List.sum_cons]
          push_cast
          ring
        rw [e1, e2]
        push_cast
        rw [hnum]
        ring_nf
      · rw [hstep, ih2]
        simp [wTot]
        omega

/-- The three career averages and the hidden weight of the fold, as scalar
folds of the per-season `(average, races)` pairs. -/
lemma careerFold_proj (l : List DriverRec) (o : DriverRec) :
    ((l.foldl careerStep o).avg_incidents, (l.foldl careerStep o).rp) =
      wfold (l.map (fun d => (d.avg_incidents, d.races))) o.avg_incidents o.rp ∧
    ((l.foldl careerStep o).avg_start, (l.foldl careerStep o).rp) =
      wfold (l.map (fun d => (d.avg_start, d.races))) o.avg_start o.rp ∧
    ((l.foldl careerStep o).avg_finish, (l.foldl careerStep o).rp) =
      wfold (l.map (fun d => (d.avg_finish, d.races))) o.avg_finish o.rp := by
  induction l generalizing o with
  | nil => simp [wfold]
  | cons d t ih =>
      obtain ⟨ih1, ih2, ih3⟩ := ih (careerStep o d)
      refine ⟨?_, ?_, ?_⟩
      · rw [List.foldl_cons, ih1]
        rfl
      · rw [List.foldl_cons, ih2]
        rfl
      · rw [List.foldl_cons, ih3]
        rfl

/-- Each career average is the races-weighted mean of the season averages. -/
lemma aggregateDriver_avg (l : List DriverRec) (c : String) :
    (aggregateDriver l c).avg_incidents =
      wSum (l.map (fun d => (d.avg_incidents, d.races))) /
        (wTot (l.map (fun d => (d.avg_incidents, d.races))) : ℚ) ∧
    (aggregateDriver l c).avg_start =
      wSum (l.map (fun d => (d.avg_start, d.races))) /
        (wTot (l.map (fun d => (d.avg_start, d.races))) : ℚ) ∧
    (aggregateDriver l c).avg_finish =
      wSum (l.map (fun d => (d.avg_finish, d.races))) /
        (wTot (l.map (fun d => (d.avg_finish, d.races))) : ℚ) := by
  obtain ⟨h1, h2, h3⟩ := careerFold_proj l (freshRec c)
  refine ⟨?_, ?_, ?_⟩
  · have := wfold_closed (l.map (fun d => (d.avg_incidents, d.races))) 0 0 (fun _ => rfl)
    have hfst := congrArg Prod.fst h1
    simp only [freshRec] at hfst
    rw [aggregateDriver]
    simp only [freshRec]
    rw [hfst, this.1]
    norm_num
  · have := wfold_closed (l.map (fun d => (d.avg_start, d.races))) 0 0 (fun _ => rfl)
    have hfst := congrArg Prod.fst h2
    simp only [freshRec] at hfst
    rw [aggregateDriver]
    simp only [freshRec]
    rw [hfst, this.1]
    norm_num
  · have := wfold_closed (l.map (fun d => (d.avg_finish, d.races))) 0 0 (fun _ => rfl)
    have hfst := congrArg Prod.fst h3
    simp only [freshRec] at hfst
    rw [aggregateDriver]
    simp only [freshRec]
    rw [hfst, this.1]
    norm_num

/-- C6: folding a driver's seasons into the career view in any permutation
order yields identical `avg_finish`, `avg_start` and `avg_incidents` — in
this exact-rational embedding the equality is exact, so it holds within any
floating-point tolerance — because each fold step weights the season's
average by that season's own `races` count. -/
theorem claim_C6 (l₁ l₂ : List DriverRec) (c : String) (h : l₁.Perm l₂) :
    (aggregateDriverFinal l₁ c).avg_finish = (aggregateDriverFinal l₂ c).avg_finish ∧
    (aggregateDriverFinal l₁ c).avg_start = (aggregateDriverFinal l₂ c).avg_start ∧
    (aggregateDriverFinal l₁ c).avg_incidents = (aggregateDriverFinal l₂ c).avg_incidents := by
  obtain ⟨a1, a2, a3⟩ := aggregateDriver_avg l₁ c
  obtain ⟨b1, b2, b3⟩ := aggregateDriver_avg l₂ c
  have key : ∀ f : DriverRec → ℚ,
      wSum (l₁.map (fun d => (f d, d.races))) = wSum (l₂.map (fun d => (f d, d.races))) ∧
      wTot (l₁.map (fun d => (f d, d.races))) = wTot (l₂.map (fun d => (f d, d.races))) := by
    intro f
    have hp : (l₁.map (fun d => (f d, d.races))).Perm (l₂.map (fun d => (f d, d.races))) :=
      h.map _
    exact ⟨List.Perm.sum_eq (hp.map _), List.Perm.sum_eq (hp.map _)⟩
  refine ⟨?_, ?_, ?_⟩
  · simp only [aggregateDriverFinal, roundAvgs2]
    rw [a3, b3, (key (fun d => d.avg_finish)).1, (key (fun d => d.avg_finish)).2]
  · simp only [aggregateDriverFinal, roundAvgs2]
    rw [a2, b2, (key (fun d => d.avg_start)).1, (key (fun d => d.avg_start)).2]
  · simp only [aggregateDriverFinal, roundAvgs2]
    rw [a1, b1, (key (fun d => d.avg_incidents)).1, (key (fun d => d.avg_incidents)).2]

/-- Witness for C6: two seasons folded in both orders give the same career
averages. -/
theorem claim_C6_witness :
    (aggregateDriverFinal [recX3, recX31] "").avg_finish =
      (aggregateDriverFinal [recX31, recX3] "").avg_finish ∧
    (aggregateDriverFinal [recX3, recX31] "").avg_start =
      (aggregateDriverFinal [recX31, recX3] "").avg_start ∧
    (aggregateDriverFinal [recX3, recX31] "").avg_incidents =
      (aggregateDriverFinal [recX31, recX3] "").avg_incidents :=
  claim_C6 [recX3, recX31] [recX31, recX3] "" (by decide)

/-- Winner row of the C7 counterexample race: finishes first with 3 laps. -/
def c7RowA : JsonRow :=
  { display_name := "A", finish_position := some 0, laps_complete := 3 }

/-- Second row of the C7 counterexample race: finishes second with 5 laps
(more laps than the winner, so the maximum differs from the winner's
count). -/
def c7RowB : JsonRow :=
  { display_name := "B", finish_position := some 1, laps_complete := 5 }

/-- Payload holding the two C7 rows in its RACE session. -/
def c7Payload : EventPayload :=
  { session_results := [{ simsession_name := "RACE", results := [c7RowA, c7RowB] }] }

/-- Driver A after the C7 payload: the appended race distance is the
winner's 3 laps, not the maximum 5. -/
def c7RecA : DriverRec :=
  { races := 1, wins := 1, podiums := 1, top10s := 1, avg_start := 6, avg_finish := 1,
    rp := 1, laps_complete := 3, race_distances := [3], position_change := 5 }

/-- Driver B after the C7 payload. -/
def c7RecB : DriverRec :=
  { races := 1, podiums := 1, top10s := 1, avg_start := 7, avg_finish := 2, rp := 1,
    laps_complete := 5, race_distances := [3], position_change := 5 }

/-- Counterexample to C7: in a race whose winner (finish_position 0)
completed 3 laps while another row completed 5, the distance appended to
each participant's `raceDistances` is 3, not the maximum 5 claimed. -/
theorem claim_C7_cx :
    ingestEvent c7Payload [] = Except.ok ([("A", c7RecA), ("B", c7RecB)], 2, 2) ∧
    ([c7RowA, c7RowB].map (fun r => r.laps_complete)).foldr max 0 = 5 ∧
    c7RecA.race_distances = [3] ∧ c7RecA.race_distances ≠ [5] := by
  have s1 : ingestRow [c7RowA, c7RowB] [] [] c7RowA = [("A", c7RecA)] := by
    norm_num +decide [ingestRow, setdefault, setKey, lookup, freshRec, updateRec, c7RowA,
      c7RowB, c7RecA, applyCounters, applyAverages, applyLaps, applyFastest, applyTail,
      fin1, start1, qualLookupFn, wavgQ, raceDistance, fastestLap]
  have s2 : ingestRow [c7RowA, c7RowB] [] [("A", c7RecA)] c7RowB =
      [("A", c7RecA), ("B", c7RecB)] := by
    norm_num +decide [ingestRow, setdefault, setKey, lookup, freshRec, updateRec, c7RowA,
      c7RowB, c7RecA, c7RecB, applyCounters, applyAverages, applyLaps, applyFastest,
      applyTail, fin1, start1, qualLookupFn, wavgQ, raceDistance, fastestLap]
  have hr : roundAvgs [("A", c7RecA), ("B", c7RecB)] = [("A", c7RecA), ("B", c7RecB)] := by
    norm_num +decide [roundAvgs, roundRec3, c7RecA, c7RecB, pyRound, roundHalfEven]
  refine ⟨?_, by decide, by decide, by decide⟩
  simp only [ingestEvent, c7Payload, List.filter, List.foldl]
  norm_num +decide [s1, s2, hr]

/-- C7 as amended: the distance appended to each participating driver's
`raceDistances` is the `laps_complete` of the first row whose
`finish_position` is 0 (the winner) whenever that count is nonzero — even
when it is not the maximum across rows; the maximum is only the fallback
for a zero or missing winner count. -/
theorem claim_C7_amended (rs qs : List JsonRow) (row : JsonRow) (d : DriverRec)
    (w : JsonRow)
    (hw : rs.find? (fun r => r.finish_position = some 0) = some w)
    (hwl : w.laps_complete ≠ 0) :
    raceDistance rs = w.laps_complete ∧
    (updateRec rs qs row d).race_distances = d.race_distances ++ [w.laps_complete] := by
  have hrd : raceDistance rs = w.laps_complete := by
    simp [raceDistance, hw, hwl]
  refine ⟨hrd, ?_⟩
  obtain ⟨h1, h2, h3, h4, h5, h6⟩ := updateRec_fields rs qs row d
  rw [h3, hrd, if_pos (Nat.pos_of_ne_zero hwl)]

/-- Witness for C7's amended theorem: the counterexample race itself,
updating driver A's fresh record. -/
theorem claim_C7_amended_witness :
    raceDistance [c7RowA, c7RowB] = c7RowA.laps_complete ∧
    (updateRec [c7RowA, c7RowB] [] c7RowA (freshRec "")).race_distances =
      (freshRec "").race_distances ++ [c7RowA.laps_complete] :=
  claim_C7_amended [c7RowA, c7RowB] [] c7RowA (freshRec "") c7RowA (by decide) (by decide)

/-- Three-driver dataset whose `avg_finish` values are `[2, 5, 1]` in dict
order. -/
def c9Data : DriversMap :=
  [("P", { avg_finish := 2 }), ("Q", { avg_finish := 5 }), ("R", { avg_finish := 1 })]

/-- C9: for the three lower-is-better average metrics the sort key is the
negated metric value, so the descending sort lists drivers
lowest-value-first (the ranked rows are pairwise ascending in the metric);
in particular `avg_finish` values `[2, 5, 1]` rank as `[1, 2, 5]`. -/
theorem claim_C9 :
    (∀ (metric : String) (dataset : DriversMap),
      metric = "avg_start" ∨ metric = "avg_finish" ∨ metric = "avg_incidents" →
      (∀ r, sortKeyQ metric r = -(rowMetric metric r)) ∧
      (rowsFromDataset dataset metric).Pairwise
        (fun a b => rowMetric metric a ≤ rowMetric metric b)) ∧
    (rowsFromDataset c9Data "avg_finish").map (fun r => r.avg_finish) = [1, 2, 5] := by
  constructor
  · intro metric dataset hm
    have hkey : ∀ r, sortKeyQ metric r = -(rowMetric metric r) := by
      intro r
      rcases hm with h | h | h <;> simp [sortKeyQ, h]
    refine ⟨hkey, ?_⟩
    haveI : IsTotal RankRow (rankLe metric) :=
      ⟨fun a b => le_total (sortKeyQ metric b) (sortKeyQ metric a)⟩
    haveI : IsTrans RankRow (rankLe metric) :=
      ⟨fun a b c h1 h2 => le_trans h2 h1⟩
    have hs : List.Sorted (rankLe metric) (rowsFromDataset dataset metric) :=
      List.sorted_insertionSort (rankLe metric) _
    refine hs.imp ?_
    intro a b hab
    have hab' : sortKeyQ metric b ≤ sortKeyQ metric a := hab
    rw [hkey a, hkey b] at hab'
    linarith
  · norm_num +decide [rowsFromDataset, rowOf, pctOf, pyRound, roundHalfEven, rankLe,
      sortKeyQ, rowMetric, c9Data, List.insertionSort, List.orderedInsert, Int.fract,
      -Int.self_sub_floor]

/-- Witness for C9: the general part applied to the `avg_finish` metric on
the concrete three-driver dataset. -/
theorem claim_C9_witness :
    (rowsFromDataset c9Data "avg_finish").Pairwise
      (fun a b => rowMetric "avg_finish" a ≤ rowMetric "avg_finish" b) :=
  (claim_C9.1 "avg_finish" c9Data (Or.inr (Or.inl rfl))).2

/-! ### Reversal lemmas (C4, C8) -/

/-- Writing key `k` overwrites what `lookup` sees at `k` (when present). -/
lemma lookup_setKey (m : DriversMap) (k : String) (v : DriverRec) :
    lookup (setKey m k v) k = (lookup m k).map (fun _ => v) := by
  induction m with
  | nil => simp [lookup, setKey]
  | cons p t ih =>
      by_cases hp : p.1 = k
      · simp [lookup, setKey, List.find?_cons, hp]
      · simpa [lookup, setKey, List.find?_cons, hp] using ih

/-- Writing key `k` leaves `lookup` at any other key unchanged. -/
lemma lookup_setKey_ne (m : DriversMap) (k : String) (v : DriverRec) (X : String)
    (h : X ≠ k) : lookup (setKey m k v) X = lookup m X := by
  induction m with
  | nil => simp [lookup, setKey]
  | cons p t ih =>
      by_cases hp : p.1 = k
      · have hpx : ¬ (k = X) := fun hk => h hk.symm
        have hpx' : ¬ (p.1 = X) := by rw [hp]; exact hpx
        simpa [lookup, setKey, List.find?_cons, hp, hpx, hpx'] using ih
      · simp only [setKey, List.map_cons, if_neg hp]
        by_cases hq : p.1 = X
        · simp [lookup, List.find?_cons, hq]
        · simpa [lookup, setKey, List.find?_cons, hq] using ih

/-- The three averages and the hidden weight of a record, the fields the
reversal engine is claimed to reset. -/
def avgView (d : DriverRec) : ℚ × ℚ × ℚ × ℕ :=
  (d.avg_incidents, d.avg_start, d.avg_finish, d.rp)

/-- The season store of a given name. -/
def seasonOf (seasons : List (String × DriversMap)) (s : String) : Option DriversMap :=
  (seasons.find? (fun p => p.1 = s)).map (fun p => p.2)

/-- The averages-and-weight fields one record shares with another. -/
def keepAvg (a b : DriverRec) : Prop :=
  a.avg_incidents = b.avg_incidents ∧ a.avg_start = b.avg_start ∧
  a.avg_finish = b.avg_finish ∧ a.rp = b.rp

lemma keepAvg_trans {a b c : DriverRec} (h1 : keepAvg a b) (h2 : keepAvg b c) :
    keepAvg a c :=
  ⟨h1.1.trans h2.1, h1.2.1.trans h2.2.1, h1.2.2.1.trans h2.2.2.1, h1.2.2.2.trans h2.2.2.2⟩

lemma revRaces_keep (d : DriverRec) :
    keepAvg (revRaces d).1 d ∧ (revRaces d).1.races = d.races - 1 := by
  unfold revRaces keepAvg
  split_ifs <;> first
    | (simp; omega)
    | simp

lemma revWins_keep (info : DeletedInfo) (s : DriverRec × Bool) :
    keepAvg (revWins info s).1 s.1 ∧ (revWins info s).1.races = s.1.races := by
  unfold revWins keepAvg
  split_ifs <;> simp

lemma revPoles_keep (info : DeletedInfo) (s : DriverRec × Bool) :
    keepAvg (revPoles info s).1 s.1 ∧ (revPoles info s).1.races = s.1.races := by
  unfold revPoles keepAvg
  split_ifs <;> simp

lemma revPodiums_keep (info : DeletedInfo) (s out : DriverRec × Bool)
    (h : revPodiums info s = Except.ok out) :
    keepAvg out.1 s.1 ∧ out.1.races = s.1.races := by
  unfold revPodiums at h
  unfold keepAvg
  split_ifs at h
  · cases hfin : info.finish with
    | none => rw [hfin] at h; exact absurd h (by simp)
    | some f =>
        rw [hfin] at h
        simp only [Except.ok.injEq] at h
        rw [← h]
        split_ifs <;> simp
  · simp only [Except.ok.injEq] at h
    rw [← h]
    simp

lemma revTop10s_keep (info : DeletedInfo) (s out : DriverRec × Bool)
    (h : revTop10s info s = Except.ok out) :
    keepAvg out.1 s.1 ∧ out.1.races = s.1.races := by
  unfold revTop10s at h
  unfold keepAvg
  split_ifs at h
  · cases hfin : info.finish with
    | none => rw [hfin] at h; exact absurd h (by simp)
    | some f =>
        rw [hfin] at h
        simp only [Except.ok.injEq] at h
        rw [← h]
        split_ifs <;> simp
  · simp only [Except.ok.injEq] at h
    rw [← h]
    simp

lemma revPoints_keep (info : DeletedInfo) (s : DriverRec × Bool) :
    keepAvg (revPoints info s).1 s.1 ∧ (revPoints info s).1.races = s.1.races := by
  unfold revPoints keepAvg
  split_ifs <;> simp

/-- A successful per-driver reversal leaves the averages and the hidden
weight untouched and decrements `races` by exactly one (`ℕ` subtraction
absorbing the `max(0, ...)` guard). -/
lemma reverseDriver_ok (info : DeletedInfo) (d : DriverRec) (q : DriverRec × Bool)
    (h : reverseDriver info d = Except.ok q) :
    q.1.avg_incidents = d.avg_incidents ∧ q.1.avg_start = d.avg_start ∧
    q.1.avg_finish = d.avg_finish ∧ q.1.rp = d.rp ∧ q.1.races = d.races - 1 := by
  unfold reverseDriver at h
  split at h
  next e heq => exact absurd h (by simp)
  next s4 heq =>
    split at h
    next e heq2 => exact absurd h (by simp)
    next s5 heq2 =>
      simp only [Except.ok.injEq] at h
      obtain ⟨k1, r1⟩ := revRaces_keep d
      obtain ⟨k2, r2⟩ := revWins_keep info (revRaces d)
      obtain ⟨k3, r3⟩ := revPoles_keep info (revWins info (revRaces d))
      obtain ⟨k4, r4⟩ := revPodiums_keep info _ s4 heq
      obtain ⟨k5, r5⟩ := revTop10s_keep info s4 s5 heq2
      obtain ⟨k6, r6⟩ := revPoints_keep info s5
      have kall : keepAvg q.1 d := by
        rw [← h]
        exact keepAvg_trans k6 (keepAvg_trans k5 (keepAvg_trans k4
          (keepAvg_trans k3 (keepAvg_trans k2 k1))))
      have rall : q.1.races = d.races - 1 := by
        rw [← h, r6, r5, r4, r3, r2, r1]
      exact ⟨kall.1, kall.2.1, kall.2.2.1, kall.2.2.2, rall⟩

/-- One reversal step touches only the deleted driver's own key. -/
lemma revStep_lookup_ne (st : DriversMap × Bool) (p : String × DeletedInfo)
    (st1 : DriversMap × Bool) (h : revStep st p = Except.ok st1) (X : String)
    (hX : X ≠ p.1) : lookup st1.1 X = lookup st.1 X := by
  unfold revStep at h
  split at h
  next hl =>
    simp only [Except.ok.injEq] at h
    rw [← h]
  next d hl =>
    cases hrd : reverseDriver p.2 d with
    | error e => rw [hrd] at h; simp [Except.map] at h
    | ok q =>
        rw [hrd] at h
        simp only [Except.map, Except.ok.injEq] at h
        rw [← h]
        exact lookup_setKey_ne st.1 p.1 q.1 X hX

/-- The reversal loop leaves drivers outside `deleted_races` untouched. -/
lemma foldRevStep_lookup_notmem (dels : List (String × DeletedInfo)) :
    ∀ (st out : DriversMap × Bool), List.foldlM revStep st dels = Except.ok out →
      ∀ X, X ∉ dels.map Prod.fst → lookup out.1 X = lookup st.1 X := by
  induction dels with
  | nil =>
      intro st out h X _
      simp only [List.foldlM_nil, pure, Except.pure, Except.ok.injEq] at h
      rw [h]
  | cons p t ih =>
      intro st out h X hX
      rw [List.foldlM_cons] at h
      cases hstep : revStep st p with
      | error e =>
          rw [hstep] at h
          simp only [bind, Except.bind] at h
          exact absurd h (by simp)
      | ok st1 =>
          rw [hstep] at h
          simp only [bind, Except.bind] at h
          have hX1 : X ∉ t.map Prod.fst := fun hmem => hX (by simp [hmem])
          have hXp : X ≠ p.1 := fun he => hX (by simp [he])
          exact (ih st1 out h X hX1).trans (revStep_lookup_ne st p st1 hstep X hXp)

/-- The reversal loop applies `reverseDriver` exactly once to a deleted
driver that is present, provided the deleted keys are distinct (as they
are, coming from a dict). -/
lemma foldRevStep_races (dels : List (String × DeletedInfo)) :
    ∀ (st out : DriversMap × Bool) (X : String) (info : DeletedInfo) (d : DriverRec),
      List.foldlM revStep st dels = Except.ok out →
      (dels.map Prod.fst).Nodup → (X, info) ∈ dels → lookup st.1 X = some d →
      ∃ q : DriverRec × Bool, reverseDriver info d = Except.ok q ∧
        lookup out.1 X = some q.1 := by
  induction dels with
  | nil => intro st out X info d _ _ hmem; exact absurd hmem (by simp)
  | cons p t ih =>
      intro st out X info d h hnd hmem hx
      rw [List.foldlM_cons] at h
      cases hstep : revStep st p with
      | error e =>
          rw [hstep] at h
          simp only [bind, Except.bind] at h
          exact absurd h (by simp)
      | ok st1 =>
          rw [hstep] at h
          simp only [bind, Except.bind] at h
          rw [List.map_cons, List.nodup_cons] at hnd
          rcases List.mem_cons.mp hmem with heq | hmem'
          · have hXp : X = p.1 := by rw [← heq]
            have hip : info = p.2 := by rw [← heq]
            have hstep' := hstep
            unfold revStep at hstep'
            split at hstep'
            next hl =>
                rw [hXp, hl] at hx
                exact absurd hx (by simp)
            next d' hl =>
                rw [hXp, hl] at hx
                simp only [Option.some.injEq] at hx
                subst hx
                cases hrd : reverseDriver p.2 d' with
                | error e => rw [hrd] at hstep'; simp [Except.map] at hstep'
                | ok q =>
                    rw [hrd] at hstep'
                    simp only [Except.map, Except.ok.injEq] at hstep'
                    refine ⟨q, by rw [hip]; exact hrd, ?_⟩
                    have hnot : X ∉ t.map Prod.fst := by rw [hXp]; exact hnd.1
                    rw [foldRevStep_lookup_notmem t st1 out h X hnot, ← hstep']
                    rw [hXp, lookup_setKey, hl]
                    simp
          · have hXkeys : X ∈ t.map Prod.fst :=
              List.mem_map.mpr ⟨(X, info), hmem', rfl⟩
            have hXp : X ≠ p.1 := fun he => hnd.1 (he ▸ hXkeys)
            have hx1 : lookup st1.1 X = some d := by
              rw [revStep_lookup_ne st p st1 hstep X hXp]
              exact hx
            exact ih st1 out X info d h hnd.2 hmem' hx1

/-- `upsertInfo` keeps the key list unchanged on replace, appends on
insert. -/
lemma upsertInfo_keys (l : List (String × DeletedInfo)) (k : String) (v : DeletedInfo) :
    (upsertInfo l k v).map Prod.fst =
      if (l.find? (fun p => p.1 = k)).isSome then l.map Prod.fst
      else l.map Prod.fst ++ [k] := by
  unfold upsertInfo
  split_ifs with hf
  · rw [List.map_map]
    apply List.map_congr_left
    intro p _
    by_cases hp : p.1 = k
    · simp [hp]
    · simp [hp]
  · simp

/-- Keys stay distinct under `upsertInfo`. -/
lemma upsertInfo_keys_nodup (l : List (String × DeletedInfo)) (k : String)
    (v : DeletedInfo) (h : (l.map Prod.fst).Nodup) :
    ((upsertInfo l k v).map Prod.fst).Nodup := by
  rw [upsertInfo_keys]
  split_ifs with hf
  · exact h
  · have hk : k ∉ l.map Prod.fst := by
      intro hmem
      obtain ⟨p, hp, hpk⟩ := List.mem_map.mp hmem
      have : (l.find? (fun p => p.1 = k)).isSome := by
        rw [List.find?_isSome]
        exact ⟨p, hp, by simp [hpk]⟩
      exact hf this
    simp [List.nodup_append, h, hk]

/-- The `deleted_races` dict has pairwise-distinct keys. -/
lemma deletedRaces_keys_nodup (results : List JsonRow) :
    ((deletedRaces results).map Prod.fst).Nodup := by
  unfold deletedRaces
  suffices hgen : ∀ acc : List (String × DeletedInfo), (acc.map Prod.fst).Nodup →
      ((results.foldl
        (fun acc row =>
          let name := pyStrip row.display_name
          if name = "" then acc else upsertInfo acc name (deletedInfoOfRow row)) acc).map
        Prod.fst).Nodup by
    exact hgen [] (by simp)
  induction results with
  | nil => intro acc h; simpa
  | cons row t ih =>
      intro acc h
      rw [List.foldl_cons]
      by_cases hn : pyStrip row.display_name = ""
      · simp only [hn, if_pos]
        exact ih acc h
      · simp only [hn, if_neg, ite_false]
        exact ih _ (upsertInfo_keys_nodup acc _ _ h)

/-- One reversal step preserves every driver's averages and weight, as seen
through `lookup`. -/
lemma revStep_avgView (st : DriversMap × Bool) (p : String × DeletedInfo)
    (out : DriversMap × Bool) (h : revStep st p = Except.ok out) (X : String) :
    (lookup out.1 X).map avgView = (lookup st.1 X).map avgView := by
  unfold revStep at h
  split at h
  next hl =>
    simp only [Except.ok.injEq] at h
    rw [h]
  next d hl =>
    cases hrd : reverseDriver p.2 d with
    | error e => rw [hrd] at h; simp [Except.map] at h
    | ok q =>
        rw [hrd] at h
        simp only [Except.map, Except.ok.injEq] at h
        obtain ⟨r1, r2, r3, r4, r5⟩ := reverseDriver_ok p.2 d q hrd
        rw [← h]
        simp only []
        by_cases hX : X = p.1
        · subst hX
          rw [lookup_setKey, hl]
          simp [avgView, r1, r2, r3, r4]
        · rw [lookup_setKey_ne _ _ _ _ hX]

/-- The whole per-season reversal loop preserves every driver's averages
and weight. -/
lemma foldRevStep_avgView (dels : List (String × DeletedInfo)) :
    ∀ (st out : DriversMap × Bool), List.foldlM revStep st dels = Except.ok out →
      ∀ X, (lookup out.1 X).map avgView = (lookup st.1 X).map avgView := by
  induction dels with
  | nil =>
      intro st out h X
      simp only [List.foldlM_nil, pure, Except.pure, Except.ok.injEq] at h
      rw [h]
  | cons p t ih =>
      intro st out h X
      rw [List.foldlM_cons] at h
      cases hstep : revStep st p with
      | error e =>
          rw [hstep] at h
          simp only [bind, Except.bind] at h
          exact absurd h (by simp)
      | ok st1 =>
          rw [hstep] at h
          simp only [bind, Except.bind] at h
          exact (ih st1 out h X).trans (revStep_avgView st p st1 hstep X)

/-- Season-level reversal preserves every driver's averages and weight,
whether the season is saved, skipped as unmodified, or aborted by the
`TypeError` path. -/
lemma reverseOneSeason_avgView (dels : List (String × DeletedInfo)) (m : DriversMap)
    (X : String) :
    (lookup (reverseOneSeason dels m).1 X).map avgView = (lookup m X).map avgView := by
  unfold reverseOneSeason
  cases hr : reverseSeasonDrivers dels m with
  | error e => simp
  | ok q =>
      by_cases hq : q.2
      · simp only [hq, if_true]
        have : List.foldlM revStep (m, false) dels = Except.ok q := hr
        have h0 := foldRevStep_avgView dels (m, false) q this X
        simpa using h0
      · simp [hq]

/-- `find?` on a name-keyed list commutes with a value-only transformation. -/
lemma find?_key_map (l : List (String × DriversMap)) (g : String × DriversMap → DriversMap)
    (s : String) :
    (l.map (fun sp => (sp.1, g sp))).find? (fun q => q.1 = s) =
      (l.find? (fun q => q.1 = s)).map (fun sp => (sp.1, g sp)) := by
  induction l with
  | nil => simp
  | cons p t ih =>
      by_cases hp : p.1 = s
      · simp [List.find?_cons, hp]
      · simp [List.find?_cons, hp, ih]

/-! ### Ingestion invariants (C5) -/

/-- A per-record predicate holding for every driver of a season map. -/
def mapAll (P : DriverRec → Prop) (m : DriversMap) : Prop :=
  ∀ p ∈ m, P p.2

lemma mem_setKey {m : DriversMap} {k : String} {v : DriverRec} {p : String × DriverRec}
    (hp : p ∈ setKey m k v) : p = (k, v) ∨ p ∈ m := by
  unfold setKey at hp
  obtain ⟨q, hq, hqe⟩ := List.mem_map.mp hp
  by_cases h : q.1 = k
  · left
    rw [← hqe]
    simp [h]
  · right
    rw [← hqe]
    simp only [if_neg h]
    exact hq

lemma mem_setdefault {m : DriversMap} {k : String} {v0 : DriverRec} {p : String × DriverRec}
    (hp : p ∈ setdefault m k v0) : p ∈ m ∨ p = (k, v0) := by
  unfold setdefault at hp
  split_ifs at hp
  · exact Or.inl hp
  · rcases List.mem_append.mp hp with h | h
    · exact Or.inl h
    · right
      simpa using h

lemma lookup_mem {m : DriversMap} {k : String} {d : DriverRec}
    (h : lookup m k = some d) : (k, d) ∈ m := by
  unfold lookup at h
  cases hf : m.find? (fun p => p.1 = k) with
  | none => rw [hf] at h; simp at h
  | some p =>
      rw [hf] at h
      simp only [Option.map, Option.some.injEq] at h
      have hp : p.1 = k := by simpa using List.find?_some hf
      have hm := List.mem_of_find?_eq_some hf
      cases p with
      | mk a b =>
          simp only at hp h
          rw [← hp, ← h]
          exact hm

lemma mapAll_ingestRow (P : DriverRec → Prop) (rs qs : List JsonRow) (row : JsonRow)
    (m : DriversMap)
    (hfresh : ∀ c, P (freshRec c))
    (hcountry : ∀ d c, P d → P { d with country := c })
    (hupd : ∀ d, P d → P (updateRec rs qs row d))
    (h : mapAll P m) : mapAll P (ingestRow rs qs m row) := by
  unfold ingestRow
  by_cases hn : pyStrip row.display_name = ""
  · simpa [hn]
  · rw [if_neg hn]
    have hmap1 : mapAll P (setdefault m (pyStrip row.display_name)
        (freshRec (pyLower row.country_code))) := by
      intro p hp
      rcases mem_setdefault hp with h1 | h1
      · exact h p h1
      · rw [h1]
        exact hfresh _
    intro p hp
    rcases mem_setKey hp with h1 | h1
    · rw [h1]
      apply hupd
      have hPd0 : P ((lookup (setdefault m (pyStrip row.display_name)
          (freshRec (pyLower row.country_code))) (pyStrip row.display_name)).getD
            (freshRec (pyLower row.country_code))) := by
        cases hl : lookup (setdefault m (pyStrip row.display_name)
            (freshRec (pyLower row.country_code))) (pyStrip row.display_name) with
        | none => simpa using hfresh _
        | some dd =>
            have := hmap1 (pyStrip row.display_name, dd) (lookup_mem hl)
            simpa using this
      split_ifs with hc
      · exact hcountry _ _ hPd0
      · exact hPd0
    · exact hmap1 p h1

lemma mapAll_roundAvgs (P : DriverRec → Prop) (hround : ∀ d, P d → P (roundRec3 d))
    (m : DriversMap) (h : mapAll P m) : mapAll P (roundAvgs m) := by
  intro p hp
  obtain ⟨q, hq, hqe⟩ := List.mem_map.mp hp
  rw [← hqe]
  exact hround _ (h q hq)

lemma mapAll_ingestRows (P : DriverRec → Prop) (rs qs : List JsonRow)
    (rows : List JsonRow)
    (hfresh : ∀ c, P (freshRec c))
    (hcountry : ∀ d c, P d → P { d with country := c })
    (hupd : ∀ row ∈ rows, ∀ d, P d → P (updateRec rs qs row d)) :
    ∀ m, mapAll P m → mapAll P (rows.foldl (ingestRow rs qs) m) := by
  induction rows with
  | nil => intro m hm; simpa
  | cons row t ih =>
      intro m hm
      rw [List.foldl_cons]
      exact ih (fun r hr => hupd r (by simp [hr]))
        _ (mapAll_ingestRow P rs qs row m hfresh hcountry (hupd row (by simp)) hm)

lemma mapAll_ingestEvent (P : DriverRec → Prop) (rowCond : JsonRow → Prop)
    (hfresh : ∀ c, P (freshRec c))
    (hcountry : ∀ d c, P d → P { d with country := c })
    (hround : ∀ d, P d → P (roundRec3 d))
    (hupd : ∀ rs qs row d, rowCond row → P d → P (updateRec rs qs row d))
    (p : EventPayload) (m : DriversMap) (out : DriversMap × ℕ × ℕ)
    (hok : ingestEvent p m = Except.ok out)
    (hrows : ∀ s ∈ p.session_results, ∀ r ∈ s.results, rowCond r)
    (h : mapAll P m) : mapAll P out.1 := by
  simp only [ingestEvent] at hok
  split at hok
  next heq => exact absurd hok (by simp)
  next rsess rest heq =>
    simp only [Except.ok.injEq] at hok
    rw [← hok]
    have hsess : rsess ∈ p.session_results := by
      have h0 : rsess ∈ p.session_results.filter
          (fun s => pyUpper s.simsession_name = "RACE") := by
        rw [heq]
        simp
      exact List.mem_of_mem_filter h0
    exact mapAll_roundAvgs P hround _
      (mapAll_ingestRows P rsess.results _ rsess.results hfresh hcountry
        (fun row hr d hd => hupd _ _ row d (hrows rsess hsess row hr) hd) m h)

lemma mapAll_ingestSeq (P : DriverRec → Prop) (rowCond : JsonRow → Prop)
    (hfresh : ∀ c, P (freshRec c))
    (hcountry : ∀ d c, P d → P { d with country := c })
    (hround : ∀ d, P d → P (roundRec3 d))
    (hupd : ∀ rs qs row d, rowCond row → P d → P (updateRec rs qs row d)) :
    ∀ (ps : List EventPayload) (m : DriversMap),
      (∀ payload ∈ ps, ∀ s ∈ payload.session_results, ∀ r ∈ s.results, rowCond r) →
      mapAll P m → mapAll P (ingestSeq ps m) := by
  intro ps
  induction ps with
  | nil => intro m _ hm; simpa [ingestSeq]
  | cons q t ih =>
      intro m hrows hm
      have hstart : mapAll P (match ingestEvent q m with
          | Except.ok r => r.1
          | Except.error _ => m) := by
        cases hok : ingestEvent q m with
        | error e => simpa using hm
        | ok r =>
            simp only []
            exact mapAll_ingestEvent P rowCond hfresh hcountry hround hupd q m r hok
              (hrows q (by simp)) hm
      have := ih _ (fun payload hp => hrows payload (by simp [hp])) hstart
      simpa [ingestSeq] using this

/-! ### Duplicate detection (C3) -/

/-- C3 as amended: a byte-identical re-upload is refused with
`DuplicatePayload` — surfacing a stored filename whose content has the same
digest (the identical bytes themselves when the digest is collision-free) —
and the state, seasons included, is unchanged; PROVIDED the stored filename
still ends in `".json"` (case-insensitively).  The counterexample shows the
proviso is real: a 100-character truncation in `_sanitize_filename` can
strip the extension, after which the stored copy escapes the duplicate
scan. -/
theorem claim_C3_amended (h : Bytes → String) (decode : Bytes → Option EventPayload)
    (st : UploadState) (fn fn0 stamp season : String) (content : Bytes)
    (hstored : (fn0, content) ∈ st.uploads) (hjson0 : jsonNamed fn0 = true)
    (hjson : jsonNamed fn = true) :
    ∃ ex, uploadCmd h decode st fn stamp season content =
        UploadResult.duplicatePayload ex st ∧
      (∃ c', (ex, c') ∈ st.uploads ∧ h c' = h content) ∧
      (Function.Injective h → ∃ c', (ex, c') ∈ st.uploads ∧ c' = content) := by
  have hsome : (st.uploads.find? (fun p => jsonNamed p.1 ∧ h p.2 = h content)).isSome := by
    rw [List.find?_isSome]
    exact ⟨(fn0, content), hstored, by simp [hjson0]⟩
  cases hfind : st.uploads.find? (fun p => jsonNamed p.1 ∧ h p.2 = h content) with
  | none => rw [hfind] at hsome; simp at hsome
  | some p =>
      have hpred : jsonNamed p.1 = true ∧ h p.2 = h content := by
        simpa using List.find?_some hfind
      have hmem := List.mem_of_find?_eq_some hfind
      have hpair : (p.1, p.2) ∈ st.uploads := by
        cases p
        exact hmem
      refine ⟨p.1, ?_, ⟨p.2, hpair, hpred.2⟩, fun hinj => ⟨p.2, hpair, hinj hpred.2⟩⟩
      unfold uploadCmd
      rw [if_neg (by simp [hjson])]
      unfold isDuplicateJson
      rw [hfind]
      simp

/-- Constant digest for the C3 counterexample (the refusal outcome is
independent of the digest, since the stored file is skipped on its name). -/
def cxHash : Bytes → String := fun _ => ""

/-- A payload with an empty RACE session, the simplest valid decode. -/
def emptyRacePayload : EventPayload :=
  { session_results := [{ simsession_name := "RACE", results := [] }] }

/-- Decoder used by the C3 counterexample. -/
def cxDecode : Bytes → Option EventPayload := fun _ => some emptyRacePayload

/-- A 105-character filename: 100 `'a'`s plus `".json"`.
`_sanitize_filename` truncates it to 100 characters, losing the
extension. -/
def longJsonName : String :=
  String.mk (List.replicate 100 'a') ++ ".json"

/-- State after the first upload of the C3 counterexample: the stored copy
is named `"s1_" ++ "a"*100`, which no longer ends in `".json"`. -/
def cxSt1 : UploadState :=
  { uploads := [("s1_" ++ String.mk (List.replicate 100 'a'), [0])],
    seasons := [("S", [])] }

/-- State after the second (byte-identical!) upload is accepted. -/
def cxSt2 : UploadState :=
  { uploads := [("s1_" ++ String.mk (List.replicate 100 'a'), [0]),
      ("s2_" ++ String.mk (List.replicate 100 'a'), [0])],
    seasons := [("S", [])] }

/-- Counterexample to C3 as stated: uploading the same bytes `[0]` twice
under the 105-character filename is NOT refused the second time — both
calls return `ok` — because the stored filename lost its `".json"` suffix
to sanitization and the duplicate scan only inspects `.json` files. -/
theorem claim_C3_cx :
    uploadCmd cxHash cxDecode { uploads := [], seasons := [] }
        longJsonName "s1" "S" [0] = UploadResult.ok cxSt1 0 0 ∧
    uploadCmd cxHash cxDecode cxSt1 longJsonName "s2" "S" [0] =
      UploadResult.ok cxSt2 0 0 := by
  have hjl : jsonNamed longJsonName = true := by decide
  have hsan : sanitizeFilename longJsonName = String.mk (List.replicate 100 'a') := by
    decide
  have hingest : ingestEvent emptyRacePayload [] = Except.ok ([], 0, 0) := by
    norm_num +decide [ingestEvent, roundAvgs, emptyRacePayload]
  constructor
  · unfold uploadCmd
    rw [if_neg (by simp [hjl])]
    have hdup : isDuplicateJson cxHash ([] : List (String × Bytes)) [0] = (false, "") := rfl
    rw [hdup]
    simp only [Bool.false_eq_true, if_false, cxDecode]
    rw [show getSeason ([] : List (String × DriversMap)) "S" = [] from rfl, hingest]
    simp [cxSt1, hsan, setSeason]
  · unfold uploadCmd
    rw [if_neg (by simp [hjl])]
    have hdup : isDuplicateJson cxHash cxSt1.uploads [0] = (false, "") := by
      unfold isDuplicateJson cxSt1
      rw [List.find?_cons_of_neg _ (by decide)]
      rfl
    rw [hdup]
    simp only [Bool.false_eq_true, if_false, cxDecode]
    rw [show getSeason cxSt1.seasons "S" = [] from rfl, hingest]
    simp [cxSt1, cxSt2, hsan, setSeason]

/-- Digest and decoder for the C3 witness. -/
def wHash : Bytes → String := fun _ => "h"

/-- Decoder for the C3 witness (never consulted: the duplicate check
refuses first). -/
def wDecode : Bytes → Option EventPayload := fun _ => none

/-- Upload state for the C3 witness: one stored `.json` payload. -/
def wSt : UploadState :=
  { uploads := [("a.json", [0])], seasons := [] }

/-- Witness for C3's amended theorem: re-uploading the stored bytes `[0]`
under a fresh `.json` name is refused as a duplicate. -/
theorem claim_C3_amended_witness :
    ∃ ex, uploadCmd wHash wDecode wSt "b.json" "s" "S" [0] =
        UploadResult.duplicatePayload ex wSt ∧
      (∃ c', (ex, c') ∈ wSt.uploads ∧ wHash c' = wHash [0]) ∧
      (Function.Injective wHash → ∃ c', (ex, c') ∈ wSt.uploads ∧ c' = [0]) :=
  claim_C3_amended wHash wDecode wSt "b.json" "a.json" "s" "S" [0]
    (by simp [wSt]) (by decide) (by decide)

/-- The counter invariant of §3: the counter chain and the race-distance
bound (`≤`, which is what the code actually maintains). -/
def InvChain (d : DriverRec) : Prop :=
  d.wins ≤ d.podiums ∧ d.podiums ≤ d.top10s ∧ d.top10s ≤ d.races ∧
  d.race_distances.length ≤ d.races

/-- The lap invariant of §3. -/
def InvLaps (d : DriverRec) : Prop :=
  d.laps_lead ≤ d.laps_complete

lemma applyCounters_chain (fin st : Option ℤ) (d : DriverRec)
    (h : d.wins ≤ d.podiums ∧ d.podiums ≤ d.top10s ∧ d.top10s ≤ d.races) :
    (applyCounters fin st d).wins ≤ (applyCounters fin st d).podiums ∧
    (applyCounters fin st d).podiums ≤ (applyCounters fin st d).top10s ∧
    (applyCounters fin st d).top10s ≤ (applyCounters fin st d).races := by
  obtain ⟨h1, h2, h3⟩ := h
  cases fin <;> cases st <;> simp only [applyCounters] <;>
    first
      | (split_ifs <;> simp <;> omega)
      | omega

/-- The counters of the full per-row update are those of the counter stage,
and the laps accumulate the row's values. -/
lemma updateRec_counters (rs qs : List JsonRow) (row : JsonRow) (d : DriverRec) :
    (updateRec rs qs row d).wins =
      (applyCounters (fin1 row)
        (start1 (qualLookupFn qs (pyStrip row.display_name)) (fin1 row) row) d).wins ∧
    (updateRec rs qs row d).podiums =
      (applyCounters (fin1 row)
        (start1 (qualLookupFn qs (pyStrip row.display_name)) (fin1 row) row) d).podiums ∧
    (updateRec rs qs row d).top10s =
      (applyCounters (fin1 row)
        (start1 (qualLookupFn qs (pyStrip row.display_name)) (fin1 row) row) d).top10s ∧
    (updateRec rs qs row d).laps_complete = d.laps_complete + row.laps_complete ∧
    (updateRec rs qs row d).laps_lead = d.laps_lead + row.laps_lead := by
  set dc := applyCounters (fin1 row)
    (start1 (qualLookupFn qs (pyStrip row.display_name)) (fin1 row) row) d with hdc
  obtain ⟨c1, c2, c3, c4, c5, c6, c7, c8⟩ := applyCounters_fields (fin1 row)
    (start1 (qualLookupFn qs (pyStrip row.display_name)) (fin1 row) row) d
  have ha := applyAverages_fields (fin1 row)
    (start1 (qualLookupFn qs (pyStrip row.display_name)) (fin1 row) row) row.incidents dc
  set da := applyAverages (fin1 row)
    (start1 (qualLookupFn qs (pyStrip row.display_name)) (fin1 row) row) row.incidents dc
    with hda
  have hl := applyLaps_fields rs row da
  set dl := applyLaps rs row da with hdl
  have hf := applyFastest_fields rs row dl
  set df := applyFastest rs row dl with hdf
  have ht := applyTail_fields (fin1 row)
    (start1 (qualLookupFn qs (pyStrip row.display_name)) (fin1 row) row) row.champ_points df
  obtain ⟨a1, a2, a3, a4, a5, a6, a7, a8, a9, a10, a11⟩ := ha
  obtain ⟨l1, l2, l3, l4, l5, l6, l7, l8, l9, l10, l11⟩ := hl
  obtain ⟨f1, f2, f3, f4, f5, f6, f7, f8, f9, f10, f11⟩ := hf
  obtain ⟨t1, t2, t3, t4, t5, t6, t7, t8, t9, t10, t11⟩ := ht
  simp only [updateRec]
  rw [← hdc, ← hda, ← hdl, ← hdf]
  refine ⟨?_, ?_, ?_, ?_, ?_⟩
  · rw [t6, f6, l6, a3]
  · rw [t7, f7, l7, a4]
  · rw [t8, f8, l8, a5]
  · rw [t9, f9, l9, a7, c7]
  · rw [t10, f10, l10, a8, c8]

/-- One row preserves the counter invariant. -/
lemma invChain_updateRec (rs qs : List JsonRow) (row : JsonRow) (d : DriverRec)
    (h : InvChain d) : InvChain (updateRec rs qs row d) := by
  obtain ⟨h1, h2, h3, h4⟩ := h
  obtain ⟨u1, u2, u3, -, -⟩ := updateRec_counters rs qs row d
  obtain ⟨f1, f2, f3, -, -, -⟩ := updateRec_fields rs qs row d
  obtain ⟨a, b, c⟩ := applyCounters_chain (fin1 row)
    (start1 (qualLookupFn qs (pyStrip row.display_name)) (fin1 row) row) d ⟨h1, h2, h3⟩
  obtain ⟨-, -, -, -, c5, -, -, -⟩ := applyCounters_fields (fin1 row)
    (start1 (qualLookupFn qs (pyStrip row.display_name)) (fin1 row) row) d
  refine ⟨?_, ?_, ?_, ?_⟩
  · rw [u1, u2]; exact a
  · rw [u2, u3]; exact b
  · rw [u3, f1, ← c5]; exact c
  · rw [f3, f1, List.length_append]
    split_ifs <;> simp <;> omega

/-- One row preserves the lap invariant when the row itself satisfies it. -/
lemma invLaps_updateRec (rs qs : List JsonRow) (row : JsonRow) (d : DriverRec)
    (hrow : row.laps_lead ≤ row.laps_complete) (h : InvLaps d) :
    InvLaps (updateRec rs qs row d) := by
  obtain ⟨-, -, -, u4, u5⟩ := updateRec_counters rs qs row d
  unfold InvLaps at h ⊢
  rw [u4, u5]
  omega

/-- C5 as amended: from an empty store, every driver record always
satisfies `wins ≤ podiums ≤ top10s ≤ races` and
`len(raceDistances) ≤ races` (equality fails — a race whose rows all report
zero laps appends nothing); and `lapsLead ≤ lapsComplete` holds provided
every ingested row reports `laps_lead ≤ laps_complete` (the code never
validates this, so an inconsistent row breaks it). -/
theorem claim_C5_amended (ps : List EventPayload) :
    (∀ p ∈ ingestSeq ps [], p.2.wins ≤ p.2.podiums ∧ p.2.podiums ≤ p.2.top10s ∧
      p.2.top10s ≤ p.2.races ∧ p.2.race_distances.length ≤ p.2.races) ∧
    ((∀ payload ∈ ps, ∀ s ∈ payload.session_results, ∀ r ∈ s.results,
        r.laps_lead ≤ r.laps_complete) →
      ∀ p ∈ ingestSeq ps [], p.2.laps_lead ≤ p.2.laps_complete) := by
  constructor
  · exact mapAll_ingestSeq InvChain (fun _ => True)
      (fun c => by simp [freshRec, InvChain])
      (fun d c hd => by simpa [InvChain] using hd)
      (fun d hd => by simpa [roundRec3, InvChain] using hd)
      (fun rs qs row d _ hd => invChain_updateRec rs qs row d hd)
      ps [] (fun _ _ _ _ _ _ => trivial) (fun p hp => absurd hp (List.not_mem_nil p))
  · intro hrows
    exact mapAll_ingestSeq InvLaps (fun r => r.laps_lead ≤ r.laps_complete)
      (fun c => by simp [freshRec, InvLaps])
      (fun d c hd => by simpa [InvLaps] using hd)
      (fun d hd => by simpa [roundRec3, InvLaps] using hd)
      (fun rs qs row d hc hd => invLaps_updateRec rs qs row d hc hd)
      ps [] hrows (fun p hp => absurd hp (List.not_mem_nil p))

/-- Witness for C5's amended theorem: one three-row-free payload
(`finPayload 3`), whose single row trivially satisfies the lap condition,
yields driver X's record satisfying all the invariants. -/
theorem claim_C5_amended_witness :
    (recX3.wins ≤ recX3.podiums ∧ recX3.podiums ≤ recX3.top10s ∧
      recX3.top10s ≤ recX3.races ∧ recX3.race_distances.length ≤ recX3.races) ∧
    recX3.laps_lead ≤ recX3.laps_complete := by
  have hm : ingestSeq [finPayload 3] [] = [("X", recX3)] := by
    simp only [ingestSeq, List.foldl, c1_step_nil_3]
  obtain ⟨h1, h2⟩ := claim_C5_amended [finPayload 3]
  constructor
  · exact h1 ("X", recX3) (by rw [hm]; simp)
  · refine h2 ?_ ("X", recX3) (by rw [hm]; simp)
    intro payload hp s hs r hr
    have hp' : payload = finPayload 3 := by simpa using hp
    subst hp'
    simp only [finPayload] at hs
    have hs' : s = { simsession_name := "RACE", results := [finRow1 3] } := by simpa using hs
    subst hs'
    have hr' : r = finRow1 3 := by simpa using hr
    subst hr'
    decide

/-- Row of the C5 counterexample: leads one lap while completing zero, in a
race whose rows all report zero completed laps. -/
def lapsRow : JsonRow :=
  { display_name := "A", finish_position := some 0, laps_lead := 1 }

/-- Payload holding only `lapsRow` in its RACE session. -/
def lapsPayload : EventPayload :=
  { session_results := [{ simsession_name := "RACE", results := [lapsRow] }] }

/-- Driver A after the C5 counterexample payload: `laps_lead = 1` exceeds
`laps_complete = 0`, and one race was counted while nothing was appended to
`race_distances`. -/
def lapsRec : DriverRec :=
  { races := 1, wins := 1, podiums := 1, top10s := 1, avg_start := 6, avg_finish := 1,
    rp := 1, laps_lead := 1, position_change := 5 }

/-- Counterexample to C5: after a single ingestion both
`lapsLead ≤ lapsComplete` and `len(raceDistances) == races` fail. -/
theorem claim_C5_cx :
    ingestEvent lapsPayload [] = Except.ok ([("A", lapsRec)], 1, 1) ∧
    ¬ lapsRec.laps_lead ≤ lapsRec.laps_complete ∧
    lapsRec.race_distances.length ≠ lapsRec.races := by
  refine ⟨?_, by decide, by decide⟩
  simp only [lapsPayload]
  rw [ingestEvent_single lapsRow [] (by decide)]
  norm_num +decide [ingestRow, setdefault, setKey, lookup, freshRec, updateRec, lapsRow,
    lapsRec, applyCounters, applyAverages, applyLaps, applyFastest, applyTail, fin1,
    start1, qualLookupFn, wavgQ, raceDistance, fastestLap, roundAvgs, roundRec3, pyRound,
    roundHalfEven]

/-- C4 as amended: reversing a payload that had contributed one race to
driver X (so X's stored count is its pre-ingestion count plus one) leaves X
with exactly its pre-ingestion race count — but X is NOT removed from the
season's driver mapping when that count reaches zero: the driver stays,
with `races = 0`.  The `reverseSeasonDrivers` success hypothesis excludes
the `TypeError` abort path, on which the season is skipped wholesale. -/
theorem claim_C4_amended (results : List JsonRow) (m m' : DriversMap) (mod : Bool)
    (X : String) (info : DeletedInfo) (d : DriverRec)
    (hX : (X, info) ∈ deletedRaces results)
    (hx : lookup m X = some d) (hr : 0 < d.races)
    (hrev : reverseSeasonDrivers (deletedRaces results) m = Except.ok (m', mod)) :
    ∃ d', lookup m' X = some d' ∧ d'.races + 1 = d.races := by
  obtain ⟨q, hq, hlq⟩ := foldRevStep_races (deletedRaces results) (m, false) (m', mod)
    X info d hrev (deletedRaces_keys_nodup results) hX hx
  obtain ⟨-, -, -, -, hraces⟩ := reverseDriver_ok info d q hq
  refine ⟨q.1, hlq, ?_⟩
  omega

/-- Driver X of the C4/C8 counterexamples after its single race is
reversed: still present, with zero counters and stale averages. -/
def recX1r : DriverRec :=
  { avg_start := 6, avg_finish := 1, rp := 1, position_change := 5 }

/-- Counterexample to C4's removal clause: ingesting one race for X and
reversing that same payload leaves X in the driver mapping with
`races = 0`, instead of removing it. -/
theorem claim_C4_cx :
    ingestSeq [finPayload 1] [] = [("X", recX1)] ∧
    removeIngestedData (finPayload 1) [("S1", [("X", recX1)])] =
      ([("S1", [("X", recX1r)])], ["S1"]) ∧
    recX1r.races = 0 ∧ lookup [("X", recX1r)] "X" = some recX1r := by
  refine ⟨?_, ?_, by decide, by decide⟩
  · simp only [ingestSeq, List.foldl, c1_step_nil_1]
  · norm_num +decide [removeIngestedData, deletedRaces, upsertInfo, deletedInfoOfRow,
      start1Raw, fin1, reverseOneSeason, reverseSeasonDrivers, revStep, reverseDriver,
      revRaces, revWins, revPoles, revPodiums, revTop10s, revPoints, lookup, setKey,
      finPayload, finRow1, recX1, recX1r, List.foldlM, bind, Except.bind, pure,
      Except.pure, Except.map]

/-- Witness for C4's amended theorem: the single-race counterexample
season, reversed. -/
theorem claim_C4_amended_witness :
    ∃ d', lookup [("X", recX1r)] "X" = some d' ∧ d'.races + 1 = recX1.races := by
  refine claim_C4_amended [finRow1 1] [("X", recX1)] [("X", recX1r)] true "X"
    { finish := some 1, start := none, incidents := 0, points := 0 } recX1
    (by decide) (by decide) (by decide) ?_
  norm_num +decide [deletedRaces, upsertInfo, deletedInfoOfRow, start1Raw, fin1,
    reverseSeasonDrivers, revStep, reverseDriver, revRaces, revWins, revPoles,
    revPodiums, revTop10s, revPoints, lookup, setKey, finRow1, recX1, recX1r,
    List.foldlM, bind, Except.bind, pure, Except.pure, Except.map]

/-- Driver X of the C8 counterexample after reversal of its only race:
averages and weight are exactly as before, in particular nonzero. -/
def recX3r : DriverRec :=
  { avg_start := 8, avg_finish := 3, rp := 1, position_change := 5 }

/-- Counterexample to C8: reversing X's only race leaves `avg_finish = 3`
and `avg_start = 8` (and `_rp = 1`) — the averages are not reset to zero. -/
theorem claim_C8_cx :
    removeIngestedData (finPayload 3) [("S", [("X", recX3)])] =
      ([("S", [("X", recX3r)])], ["S"]) ∧
    recX3r.avg_finish = 3 ∧ recX3r.avg_finish ≠ 0 ∧
    recX3r.avg_start = 8 ∧ recX3r.avg_start ≠ 0 ∧ recX3r.rp = 1 := by
  refine ⟨?_, by norm_num [recX3r], by norm_num [recX3r], by norm_num [recX3r],
    by norm_num [recX3r], by norm_num [recX3r]⟩
  norm_num +decide [removeIngestedData, deletedRaces, upsertInfo, deletedInfoOfRow,
    start1Raw, fin1, reverseOneSeason, reverseSeasonDrivers, revStep, reverseDriver,
    revRaces, revWins, revPoles, revPodiums, revTop10s, revPoints, lookup, setKey,
    finPayload, finRow1, recX3, recX3r, List.foldlM, bind, Except.bind, pure,
    Except.pure, Except.map]

/-- C8 as amended: reversal leaves every driver's `avg_incidents`,
`avg_start`, `avg_finish` (and the hidden weight `_rp`) exactly as they
were — they are neither recomputed from the remaining races nor reset to
zero. -/
theorem claim_C8_amended (p : EventPayload) (seasons : List (String × DriversMap))
    (s X : String) :
    (seasonOf (removeIngestedData p seasons).1 s).map (fun m => (lookup m X).map avgView) =
      (seasonOf seasons s).map (fun m => (lookup m X).map avgView) := by
  unfold removeIngestedData
  cases hrs : p.session_results.filter (fun q => pyUpper q.simsession_name = "RACE") with
  | nil => rfl
  | cons rsess rest =>
      simp only [hrs]
      by_cases hres : rsess.results = []
      · simp [hres]
      · by_cases hdels : deletedRaces rsess.results = []
        · simp [hres, hdels]
        · rw [if_neg hres, if_neg hdels]
          have hmaps :
              ((seasons.map (fun sp =>
                  (sp.1, reverseOneSeason (deletedRaces rsess.results) sp.2))).map
                  (fun q => (q.1, q.2.1))) =
                seasons.map (fun sp =>
                  (sp.1, (reverseOneSeason (deletedRaces rsess.results) sp.2).1)) := by
            rw [List.map_map]
            rfl
          rw [hmaps]
          unfold seasonOf
          rw [find?_key_map seasons
            (fun sp => (reverseOneSeason (deletedRaces rsess.results) sp.2).1) s]
          cases hfind : seasons.find? (fun q => q.1 = s) with
          | none => simp
          | some sp =>
              simp only [Option.map]
              exact congrArg some (reverseOneSeason_avgView (deletedRaces rsess.results) sp.2 X)

/-- Row `{name: "Alice", finish_position: 0, starting_position: 1,
champ_points: 25}` of the §8 scenario. -/
def aliceRow : JsonRow :=
  { display_name := "Alice", finish_position := some 0, starting_position := some 1,
    champ_points := 25 }

/-- Row `{name: "Bob", finish_position: 1, starting_position: 0,
champ_points: 18}` of the §8 scenario. -/
def bobRow : JsonRow :=
  { display_name := "Bob", finish_position := some 1, starting_position := some 0,
    champ_points := 18 }

/-- The §8 scenario payload: one RACE session holding exactly the Alice and
Bob rows. -/
def scenarioPayload : EventPayload :=
  { session_results := [{ simsession_name := "RACE", results := [aliceRow, bobRow] }] }

/-- Alice's record after ingesting the scenario payload into an empty
season. -/
def aliceRec : DriverRec :=
  { races := 1, wins := 1, podiums := 1, top10s := 1, poles := 0, points := 25,
    avg_incidents := 0, avg_start := 2, avg_finish := 1, rp := 1, position_change := 1 }

/-- Bob's record after ingesting the scenario payload into an empty
season. -/
def bobRec : DriverRec :=
  { races := 1, wins := 0, podiums := 1, top10s := 1, poles := 1, points := 18,
    avg_incidents := 0, avg_start := 1, avg_finish := 2, rp := 1, position_change := -1 }

/-- C2: ingesting the two-row scenario payload into an empty season yields
Alice with races=1, wins=1, podiums=1, poles=0, points=25 and Bob with
races=1, wins=0, podiums=1, poles=1, points=18 (Bob's pole coming from
starting_position 0 → one-based 1). -/
theorem claim_C2 :
    ingestEvent scenarioPayload [] = Except.ok ([("Alice", aliceRec), ("Bob", bobRec)], 2, 2) ∧
    aliceRec.races = 1 ∧ aliceRec.wins = 1 ∧ aliceRec.podiums = 1 ∧ aliceRec.poles = 0 ∧
      aliceRec.points = 25 ∧
    bobRec.races = 1 ∧ bobRec.wins = 0 ∧ bobRec.podiums = 1 ∧ bobRec.poles = 1 ∧
      bobRec.points = 18 := by
  have s1 : ingestRow [aliceRow, bobRow] [] [] aliceRow = [("Alice", aliceRec)] := by
    norm_num +decide [ingestRow, setdefault, setKey, lookup, freshRec, updateRec, aliceRow,
      bobRow, aliceRec, applyCounters, applyAverages, applyLaps, applyFastest, applyTail,
      fin1, start1, qualLookupFn, wavgQ, raceDistance, fastestLap]
  have s2 : ingestRow [aliceRow, bobRow] [] [("Alice", aliceRec)] bobRow =
      [("Alice", aliceRec), ("Bob", bobRec)] := by
    norm_num +decide [ingestRow, setdefault, setKey, lookup, freshRec, updateRec, aliceRow,
      bobRow, aliceRec, bobRec, applyCounters, applyAverages, applyLaps, applyFastest,
      applyTail, fin1, start1, qualLookupFn, wavgQ, raceDistance, fastestLap]
  have hr : roundAvgs [("Alice", aliceRec), ("Bob", bobRec)] =
      [("Alice", aliceRec), ("Bob", bobRec)] := by
    norm_num +decide [roundAvgs, roundRec3, aliceRec, bobRec, pyRound, roundHalfEven]
  refine ⟨?_, by decide, by decide, by decide, by decide, by norm_num [aliceRec],
    by decide, by decide, by decide, by decide, by norm_num [bobRec]⟩
  simp only [ingestEvent, scenarioPayload, List.filter, List.foldl]
  norm_num +decide [s1, s2, hr]

end WirlStats
